import Mathlib

/-!
Verification of the mail_filter pipeline (get_emails.py, mail_auto_annotation.py,
mbox_to_csv.py) against its natural-language design document.

The Python sources are embedded shallowly: pure helpers become Lean functions,
the two checkpointed batch loops become explicit recursive state-passing
functions driven by oracles that stand for the external world (IMAP fetches,
the chat-completion endpoint, filesystem append success).  Bytes are `List Nat`,
Python strings are Lean `String`, JSON numbers are `Rat` (Python's int/float
distinction is immaterial to the properties checked here).
-/

namespace MailFilter

/-! ## Python string primitives

Semantics of the `str` methods used by the sources: `strip`, `strip('`')`,
`replace("\n","")`, `find`, `rfind`, membership and slicing. -/

/-- Characters stripped by Python's no-argument `str.strip()` (ASCII whitespace). -/
def pyIsSpace (c : Char) : Bool :=
  c = ' ' || c = '\t' || c = '\n' || c = '\r' || c = Char.ofNat 11 || c = Char.ofNat 12

/-- The backtick character, written by code point. -/
def backtick : Char := Char.ofNat 96

/-- The opening curly brace character, written by code point. -/
def lbrace : Char := Char.ofNat 123

/-- The closing curly brace character, written by code point. -/
def rbrace : Char := Char.ofNat 125

/-- The double-quote character. -/
def dquote : Char := Char.ofNat 34

/-- The backslash character. -/
def bslash : Char := Char.ofNat 92

/-- `s.strip()`: remove ASCII whitespace from both ends. -/
def pyStrip (s : String) : String :=
  String.mk (((s.data.dropWhile pyIsSpace).reverse.dropWhile pyIsSpace).reverse)

/-- `s.strip(c)` for a single character `c`: remove `c` from both ends. -/
def pyStripChar (s : String) (c : Char) : String :=
  String.mk (((s.data.dropWhile (· = c)).reverse.dropWhile (· = c)).reverse)

/-- `s.replace("\n", "")`: removing every occurrence of the one-character
pattern `"\n"` is exactly filtering out the newline character. -/
def pyReplaceNewlines (s : String) : String :=
  String.mk (s.data.filter (fun c => c ≠ '\n'))

/-- `c in s` for a single character. -/
def pyContainsChar (s : String) (c : Char) : Bool :=
  s.data.contains c

/-- `s.find(c)`: index of the first occurrence, `-1` if absent; callers below
only use it when the character is present, so we return the index as `Nat`
with `0` as the (unreachable) absent default. -/
def pyFindChar (s : String) (c : Char) : Nat :=
  (s.data.indexOf? c).getD 0

/-- `s.rfind(c)`: index of the last occurrence. -/
def pyRFindChar (s : String) (c : Char) : Nat :=
  match (s.data.reverse.indexOf? c) with
  | some i => s.data.length - 1 - i
  | none => 0

/-- `s[a:b]` for `0 ≤ a`, `0 ≤ b`. -/
def pySlice (s : String) (a b : Nat) : String :=
  String.mk ((s.data.drop a).take (b - a))

/-! ## JSON values and Python's `json.loads`

`JValue` is the result type of `json.loads`: null, booleans, numbers
(int and float collapse into `Rat`), strings, arrays, objects.  The parser
below is a direct recursive-descent rendition of the strict default mode of
`json.loads`: the four JSON whitespace characters, no trailing garbage,
no raw control characters inside string literals. -/

inductive JValue where
  | null : JValue
  | bool (b : Bool) : JValue
  | num (q : Rat) : JValue
  | str (s : String) : JValue
  | arr (xs : List JValue) : JValue
  | obj (kvs : List (String × JValue)) : JValue

/-- JSON inter-token whitespace (exactly the four characters json.loads skips). -/
def jsonWs (c : Char) : Bool :=
  c = ' ' || c = '\t' || c = '\n' || c = '\r'

/-- Skip JSON whitespace. -/
def skipWs (cs : List Char) : List Char :=
  cs.dropWhile jsonWs

/-- Decimal digit test (code points 48-57). -/
def isDigitChar (c : Char) : Bool :=
  decide (48 ≤ c.toNat ∧ c.toNat ≤ 57)

/-- Value of one decimal digit. -/
def digitVal (c : Char) : Nat :=
  c.toNat - 48

/-- Value of a digit string. -/
def digitsVal (ds : List Char) : Nat :=
  ds.foldl (fun acc c => acc * 10 + digitVal c) 0

/-- Hexadecimal digit value (for string `\u` escapes). -/
def hexVal (c : Char) : Option Nat :=
  let n := c.toNat
  if 48 ≤ n ∧ n ≤ 57 then some (n - 48)
  else if 97 ≤ n ∧ n ≤ 102 then some (n - 87)
  else if 65 ≤ n ∧ n ≤ 70 then some (n - 55)
  else none

/-- Parse the body of a JSON string literal (after the opening quote),
strict mode: raw control characters below 0x20 are rejected. -/
def parseStringBody : List Char → List Char → Option (String × List Char)
  | acc, c :: rest =>
    if c = dquote then
      some (String.mk acc.reverse, rest)
    else if c = bslash then
      match rest with
      | e :: rest2 =>
        if e = dquote then parseStringBody (dquote :: acc) rest2
        else if e = bslash then parseStringBody (bslash :: acc) rest2
        else if e = '/' then parseStringBody ('/' :: acc) rest2
        else if e = 'b' then parseStringBody (Char.ofNat 8 :: acc) rest2
        else if e = 'f' then parseStringBody (Char.ofNat 12 :: acc) rest2
        else if e = 'n' then parseStringBody ('\n' :: acc) rest2
        else if e = 'r' then parseStringBody ('\r' :: acc) rest2
        else if e = 't' then parseStringBody ('\t' :: acc) rest2
        else if e = 'u' then
          match rest2 with
          | h1 :: h2 :: h3 :: h4 :: rest3 =>
            match hexVal h1, hexVal h2, hexVal h3, hexVal h4 with
            | some v1, some v2, some v3, some v4 =>
              parseStringBody (Char.ofNat (((v1 * 16 + v2) * 16 + v3) * 16 + v4) :: acc) rest3
            | _, _, _, _ => none
          | _ => none
        else none
      | [] => none
    else if c.toNat < 32 then none
    else parseStringBody (c :: acc) rest
  | _, [] => none

/-- Parse the digits of a JSON integer part: `0`, or a nonzero digit followed
by digits (json.loads rejects leading zeros). -/
def parseIntDigits : List Char → Option (List Char × List Char)
  | c :: rest =>
    if c = '0' then some ([c], rest)
    else if isDigitChar c then
      let more := rest.takeWhile isDigitChar
      some (c :: more, rest.dropWhile isDigitChar)
    else none
  | [] => none

/-- Parse a JSON number starting at the given characters; returns its exact
rational value. -/
def parseNumber (cs : List Char) : Option (Rat × List Char) :=
  let (neg, cs1) :=
    match cs with
    | c :: rest => if c = '-' then (true, rest) else (false, cs)
    | [] => (false, cs)
  match parseIntDigits cs1 with
  | none => none
  | some (intDs, cs2) =>
    let (fracDs, cs3) :=
      match cs2 with
      | c :: rest =>
        if c = '.' then (rest.takeWhile isDigitChar, rest.dropWhile isDigitChar)
        else ([], cs2)
      | [] => ([], cs2)
    if cs3.length ≠ cs2.length && fracDs.isEmpty then none
    else
      let (expOk, expNeg, expDs, cs4) :=
        match cs3 with
        | c :: rest =>
          if c = 'e' || c = 'E' then
            match rest with
            | s :: rest2 =>
              if s = '-' then (true, true, rest2.takeWhile isDigitChar, rest2.dropWhile isDigitChar)
              else if s = '+' then (true, false, rest2.takeWhile isDigitChar, rest2.dropWhile isDigitChar)
              else (true, false, rest.takeWhile isDigitChar, rest.dropWhile isDigitChar)
            | [] => (true, false, [], rest)
          else (false, false, [], cs3)
        | [] => (false, false, [], cs3)
      if expOk && expDs.isEmpty then none
      else
        let mantissa : Int := Int.ofNat (digitsVal (intDs ++ fracDs))
        let mantissa := if neg then -mantissa else mantissa
        let exp10 : Int := (if expNeg then -(Int.ofNat (digitsVal expDs)) else Int.ofNat (digitsVal expDs)) - Int.ofNat fracDs.length
        let value : Rat :=
          if 0 ≤ exp10 then Rat.divInt (mantissa * Int.ofNat ((10 : Nat) ^ exp10.toNat)) 1
          else Rat.divInt mantissa (Int.ofNat ((10 : Nat) ^ (-exp10).toNat))
        some (value, cs4)

mutual

/-- Recursive-descent JSON value parser (fuel-indexed). -/
def parseValue : Nat → List Char → Option (JValue × List Char)
  | 0, _ => none
  | Nat.succ n, cs =>
    match skipWs cs with
    | [] => none
    | c :: rest =>
      if c = lbrace then
        match skipWs rest with
        | c2 :: rest2 =>
          if c2 = rbrace then some (JValue.obj [], rest2)
          else parseMembers n [] (skipWs rest)
        | [] => none
      else if c = '[' then
        match skipWs rest with
        | c2 :: rest2 =>
          if c2 = ']' then some (JValue.arr [], rest2)
          else parseItems n [] (skipWs rest)
        | [] => none
      else if c = dquote then
        match parseStringBody [] rest with
        | some (s, rest2) => some (JValue.str s, rest2)
        | none => none
      else if c = 't' then
        if rest.take 3 = "rue".data then some (JValue.bool true, rest.drop 3) else none
      else if c = 'f' then
        if rest.take 4 = "alse".data then some (JValue.bool false, rest.drop 4) else none
      else if c = 'n' then
        if rest.take 3 = "ull".data then some (JValue.null, rest.drop 3) else none
      else
        match parseNumber (c :: rest) with
        | some (q, rest2) => some (JValue.num q, rest2)
        | none => none

/-- Parse the members of a JSON object after the opening brace. -/
def parseMembers : Nat → List (String × JValue) → List Char → Option (JValue × List Char)
  | 0, _, _ => none
  | Nat.succ n, acc, cs =>
    match skipWs cs with
    | c :: rest =>
      if c = dquote then
        match parseStringBody [] rest with
        | some (k, rest2) =>
          match skipWs rest2 with
          | ':' :: rest3 =>
            match parseValue n rest3 with
            | some (v, rest4) =>
              match skipWs rest4 with
              | ',' :: rest5 => parseMembers n ((k, v) :: acc) rest5
              | c6 :: rest6 =>
                if c6 = rbrace then some (JValue.obj ((k, v) :: acc).reverse, rest6)
                else none
              | [] => none
            | none => none
          | _ => none
        | none => none
      else none
    | [] => none

/-- Parse the items of a JSON array after the opening bracket. -/
def parseItems : Nat → List JValue → List Char → Option (JValue × List Char)
  | 0, _, _ => none
  | Nat.succ n, acc, cs =>
    match parseValue n cs with
    | some (v, rest) =>
      match skipWs rest with
      | ',' :: rest2 => parseItems n (v :: acc) rest2
      | ']' :: rest2 => some (JValue.arr (v :: acc).reverse, rest2)
      | _ => none
    | none => none

end

/-- Python `json.loads` in its default strict mode: one value, surrounding
whitespace allowed, nothing else. -/
def jsonLoads (s : String) : Option JValue :=
  match parseValue (s.length + 2) s.data with
  | some (v, rest) => if (skipWs rest).isEmpty then some v else none
  | none => none

end MailFilter


namespace MailFilter

/-! ## mail_auto_annotation.py

The annotation stage.  `parse_json_response` is the response-salvage function
(lines 72-110); `Ann.ann_run` is the body of `annotate()` (lines 112-239),
driven by an oracle for the chat-completion endpoint.  The output sink and the
checkpoint file are modelled explicitly; `AEvent` records the order of durable
effects (a flushed output record, a saved checkpoint). -/

/-- Checkpoint-save interval of the annotation stage (`BATCH_SIZE = 100`). -/
def ANN_BATCH_SIZE : Nat := 100

/-- `ERROR_WAIT_TIME = 0.1` seconds. -/
def ERROR_WAIT_TIME : Rat := Rat.divInt 1 10

/-- Line 194: `wait_time = ERROR_WAIT_TIME * retry_count` (the matching
`time.sleep(wait_time)` on line 196 is commented out in the source). -/
def wait_time (retry_count : Nat) : Rat := ERROR_WAIT_TIME * (retry_count : Rat)

/-- The sentinel returned when strict parsing and all salvage retries fail
(lines 106-110).  Its `reason` is the Japanese string "JSONパース失敗"
("JSON parse failure"). -/
def sentinelRecord : JValue :=
  JValue.obj [("importance", JValue.num (-1)),
              ("reason", JValue.str "JSONパース失敗"),
              ("confidence", JValue.num 0)]

/-- One salvage attempt body (lines 84-92): remove newlines, strip backticks
then whitespace, and if both braces occur cut from the first `{` to the last
`}` inclusive. -/
def salvageClean (text : String) : String :=
  let cleaned := pyReplaceNewlines text
  let cleaned := pyStrip (pyStripChar cleaned backtick)
  if pyContainsChar cleaned lbrace && pyContainsChar cleaned rbrace then
    let start_idx := pyFindChar cleaned lbrace
    let end_idx := pyRFindChar cleaned rbrace + 1
    pySlice cleaned start_idx end_idx
  else cleaned

/-- The salvage retry loop (lines 82-102): up to `max_parse_retries = 3`
attempts, each recomputing the same cleaned text from the original `text`. -/
def parseRetry (text : String) : Nat → Option JValue
  | 0 => none
  | n + 1 =>
    match jsonLoads (salvageClean text) with
    | some obj => some obj
    | none => parseRetry text n

/-- `parse_json_response` (lines 72-110): strict parse, then up to 3 salvage
attempts, then the sentinel. -/
def parse_json_response (text : String) : JValue :=
  match jsonLoads text with
  | some v => v
  | none =>
    match parseRetry text 3 with
    | some v => v
    | none => sentinelRecord

namespace Ann

/-- Python `dict.get(key, default)` on a parsed JSON object; a duplicate key
in the JSON text leaves the last occurrence in the dict. -/
def dictGet (kvs : List (String × JValue)) (key : String) (dflt : JValue) : JValue :=
  match kvs.reverse.find? (fun kv => kv.fst = key) with
  | some kv => kv.snd
  | none => dflt

/-- One line of `labeled_emails.jsonl` (lines 202-208). -/
structure Record where
  message_id : String
  email_body : String
  importance : JValue
  reason : JValue
  confidence : JValue

/-- The `body` cell of an input row: a string, or a non-string value such as
the NaN pandas yields for an empty CSV cell. -/
inductive BodyVal where
  | str (s : String) : BodyVal
  | nonString : BodyVal
deriving DecidableEq

/-- One row of `emails.csv` as seen by `annotate()` (`message_id` already
converted by `str(...)`). -/
structure Row where
  message_id : String
  body : BodyVal
deriving DecidableEq

/-- Outcome of one `client.chat.completions.create` call. -/
inductive APIResult where
  | ok (content : String) : APIResult
  | exc : APIResult

/-- The request retry loop (lines 170-196): `retry_count` starts at 0,
`max_retries = 3`; a success breaks with the content, the third failure
re-raises.  The oracle gives the outcome of the k-th call. -/
def apiAttempts (o : Nat → APIResult) : Nat → Nat → Option String
  | _, 0 => none
  | k, n + 1 =>
    match o k with
    | APIResult.ok content => some content
    | APIResult.exc => apiAttempts o (k + 1) n

/-- The bounded call: at most 3 attempts. -/
def chatCall (o : Nat → APIResult) : Option String := apiAttempts o 0 3

/-- Record construction from the parsed response (lines 202-208):
`obj.get(...)` requires a dict; on any other value Python raises
AttributeError, which the per-item handler (line 230) absorbs. -/
def mkRecord (message_id body : String) (obj : JValue) : Option Record :=
  match obj with
  | JValue.obj kvs =>
    some { message_id := message_id, email_body := body,
           importance := dictGet kvs "importance" (JValue.num 0),
           reason := dictGet kvs "reason" (JValue.str "不明"),
           confidence := dictGet kvs "confidence" (JValue.num 0) }
  | _ => none

/-- Per-item outcome in the body of the main loop (lines 158-234). -/
inductive ItemStep where
  | wrote (rec : Record) : ItemStep
  | skipNonString : ItemStep
  | dropError : ItemStep

/-- One iteration of the item loop: a non-string body is skipped but marked
processed (lines 163-167); an exhausted retry loop or a non-dict parse result
raises into the per-item handler, which records nothing (lines 230-234);
otherwise the record is written and flushed (lines 199-213). -/
def processItem (oracle : String → Nat → APIResult) (r : Row) : ItemStep :=
  match r.body with
  | BodyVal.nonString => ItemStep.skipNonString
  | BodyVal.str body =>
    match chatCall (oracle r.message_id) with
    | none => ItemStep.dropError
    | some content =>
      let text := pyStrip content
      let obj := parse_json_response text
      match mkRecord r.message_id body obj with
      | none => ItemStep.dropError
      | some rec => ItemStep.wrote rec

/-- Durable effects of the annotation stage, in order: a record appended and
flushed to `labeled_emails.jsonl`, or the checkpoint file overwritten with a
set of processed ids. -/
inductive AEvent where
  | flush (id : String) : AEvent
  | save (ids : Finset String) : AEvent
deriving DecidableEq

/-- The main loop over the remaining rows (lines 158-234), returning the final
processed set, the records appended in order, and the effect trace.  The batch
counter triggers a checkpoint save every `ANN_BATCH_SIZE` written records
(lines 220-225); skipped items do not advance it. -/
def annLoop (oracle : String → Nat → APIResult) :
    List Row → Finset String → Nat → Finset String × List Record × List AEvent
  | [], processed, _ => (processed, [], [])
  | r :: rs, processed, batchCounter =>
    match processItem oracle r with
    | ItemStep.skipNonString =>
      annLoop oracle rs (insert r.message_id processed) batchCounter
    | ItemStep.dropError =>
      annLoop oracle rs processed batchCounter
    | ItemStep.wrote rec =>
      let processed' := insert r.message_id processed
      let bc' := batchCounter + 1
      if ANN_BATCH_SIZE ≤ bc' then
        let rest := annLoop oracle rs processed' 0
        (rest.1, rec :: rest.2.1,
          AEvent.flush r.message_id :: AEvent.save processed' :: rest.2.2)
      else
        let rest := annLoop oracle rs processed' bc'
        (rest.1, rec :: rest.2.1, AEvent.flush r.message_id :: rest.2.2)

/-- The checkpoint file on disk: absent, present but unreadable, or holding a
set of processed ids. -/
inductive CpFile where
  | absent : CpFile
  | unreadable : CpFile
  | saved (ids : Finset String) : CpFile
deriving DecidableEq

/-- `load_checkpoint` (lines 60-70): an absent or unreadable file yields the
empty set. -/
def load_checkpoint : CpFile → Finset String
  | CpFile.saved ids => ids
  | _ => ∅

/-- Mode the output file is opened with (line 149). -/
inductive FileMode where
  | append : FileMode
  | write : FileMode
deriving DecidableEq

/-- Input configuration of one `annotate()` run: the parsed CSV rows, whether
`labeled_emails.jsonl` exists, its current content, and the checkpoint file. -/
structure AnnInput where
  rows : List Row
  outputExists : Bool
  prevOutput : List Record
  cpFile : CpFile

/-- Result of one `annotate()` run.  `outputFile = none` means
`labeled_emails.jsonl` does not exist afterwards. -/
structure AnnRun where
  processed : Finset String
  newRecords : List Record
  outputFile : Option (List Record)
  cpAfter : CpFile
  fileMode : FileMode
  opened : Bool
  trace : List AEvent

/-- Line 137: `remaining_df = df[~df['message_id'].astype(str).isin(processed_ids)]`. -/
def remainingOf (rows : List Row) (processed : Finset String) : List Row :=
  rows.filter (fun r => r.message_id ∉ processed)

/-- Line 126: `file_mode = 'a' if os.path.exists(OUTPUT_JSONL) and processed_ids else 'w'`. -/
def fileModeOf (inp : AnnInput) : FileMode :=
  if inp.outputExists ∧ load_checkpoint inp.cpFile ≠ ∅ then FileMode.append else FileMode.write

/-- The body of `annotate()` (lines 112-239): load the checkpoint, choose the
output file mode (line 126), compute the remaining rows, return early when
nothing remains (lines 140-142, before the output file is opened), otherwise
open the output file (truncating it in write mode), run the loop, and save the
final checkpoint (line 237).  No code path removes the checkpoint file. -/
def ann_run (oracle : String → Nat → APIResult) (inp : AnnInput) : AnnRun :=
  let processed := load_checkpoint inp.cpFile
  let fileMode := fileModeOf inp
  let remaining := remainingOf inp.rows processed
  if remaining.isEmpty then
    { processed := processed, newRecords := [],
      outputFile := if inp.outputExists then some inp.prevOutput else none,
      cpAfter := inp.cpFile, fileMode := fileMode, opened := false, trace := [] }
  else
    let res := annLoop oracle remaining processed 0
    { processed := res.1, newRecords := res.2.1,
      outputFile := some ((if fileMode = FileMode.append then inp.prevOutput else []) ++ res.2.1),
      cpAfter := CpFile.saved res.1,
      fileMode := fileMode, opened := true,
      trace := res.2.2 ++ [AEvent.save res.1] }

/-- `annotate()` with its fatal precondition (lines 116-117): a missing
`body`/`message_id` column raises ValueError before any file is touched, and
`__main__` turns the exception into a non-zero exit. -/
def annotate_main (oracle : String → Nat → APIResult) (hasCols : Bool)
    (inp : AnnInput) : Except Unit AnnRun :=
  if hasCols then Except.ok (ann_run oracle inp) else Except.error ()

end Ann


/-! ## get_emails.py

The extraction stage, resume path (`main`, lines 105-193).  The initial
IMAP sampling branch (lines 73-103) runs only when the loaded checkpoint has
no `sampled_ids`; the claims below concern the batch loop, so the model starts
after `load_checkpoint` with the loaded lists.  `Ext.World` is the oracle for
the external effects: the result of the n-th `get_connection()` call, the
per-id outcome of fetch-parse-extract (a body, or an exception absorbed by
the per-item handler on lines 153-154), and whether the n-th
`append_to_csv` call succeeds.  `imap.close()`/`logout()` are modelled as
non-failing. -/

namespace Ext

/-- One row of `emails.csv`. -/
structure ExtRecord where
  message_id : String
  body : String
deriving DecidableEq

/-- Result of one `get_connection()` call: success, an `imaplib.IMAP4.error`
(handler on line 175, no checkpoint save), or another exception (handler on
line 179, which saves a checkpoint). -/
inductive ConnRes where
  | ok : ConnRes
  | imapErr : ConnRes
  | genErr : ConnRes

/-- Oracle for the extraction stage's external effects. -/
structure World where
  connect : Nat → ConnRes
  fetch : String → Option String
  appendOk : Nat → Bool

/-- Durable effects of the extraction stage, in order. -/
inductive EEvent where
  | flushCsv (ids : List String) : EEvent
  | saveCp (processed : List String) : EEvent
  | removeCp : EEvent
deriving DecidableEq

/-- Mutable state of `main`'s batch loop. -/
structure St where
  processed : List String
  csv : List ExtRecord
  cpFile : Option (List String × List String)
  batchStart : Nat
  nConnect : Nat
  nAppend : Nat
  trace : List EEvent
  finished : Bool

/-- `BATCH_SIZE = 500`. -/
def EXT_BATCH_SIZE : Nat := 500

/-- The batch loop (lines 117-193), fuel-indexed because the outer retry runs
until the work is done.  Per batch: connect, fetch each id of the current
slice (`processed_ids.append(msg_id)` happens per item, line 152, before any
CSV write), append the batch to the CSV (line 158), save the checkpoint
(line 161), advance `batch_start` (line 168).  An `imaplib.IMAP4.error`
retries the batch without saving; any other exception (for example a failing
`append_to_csv`) saves a checkpoint of the current `processed_ids` (line 182)
and retries the batch.  After the loop the checkpoint file is removed
(lines 191-193). -/
def batchEndOf (remaining : List String) (st : St) : Nat :=
  min (st.batchStart + EXT_BATCH_SIZE) remaining.length

/-- The current batch slice (`remaining_ids[batch_start:batch_end]`, line 124). -/
def batchOf (remaining : List String) (st : St) : List String :=
  (remaining.drop st.batchStart).take (batchEndOf remaining st - st.batchStart)

/-- Ids of the current batch whose fetch-parse-extract succeeded (the others
hit the per-item handler on lines 153-154 and appear nowhere). -/
def fetchedOf (w : World) (remaining : List String) (st : St) : List String :=
  (batchOf remaining st).filter (fun id => (w.fetch id).isSome)

/-- The `batch_records` list (lines 148-151). -/
def recordsOf (w : World) (remaining : List String) (st : St) : List ExtRecord :=
  (fetchedOf w remaining st).map
    (fun id => ({ message_id := id, body := (w.fetch id).getD "" } : ExtRecord))

/-- One batch iteration whose `append_to_csv` succeeds: records flushed,
checkpoint saved (line 161), `batch_start` advanced (line 168). -/
def okBatch (w : World) (remaining sampled : List String) (st : St) : St :=
  { st with processed := st.processed ++ fetchedOf w remaining st,
            csv := st.csv ++ recordsOf w remaining st,
            cpFile := some (st.processed ++ fetchedOf w remaining st, sampled),
            batchStart := batchEndOf remaining st,
            nConnect := st.nConnect + 1,
            nAppend := st.nAppend + 1,
            trace := st.trace ++
              [EEvent.flushCsv ((recordsOf w remaining st).map ExtRecord.message_id),
               EEvent.saveCp (st.processed ++ fetchedOf w remaining st)] }

/-- One batch iteration whose `append_to_csv` raises: the generic handler
(lines 179-184) saves a checkpoint of the current `processed_ids` — which
already contains this batch's fetched ids (appended per item on line 152) —
and the batch is retried without advancing `batch_start`. -/
def appendFailBatch (w : World) (remaining sampled : List String) (st : St) : St :=
  { st with processed := st.processed ++ fetchedOf w remaining st,
            cpFile := some (st.processed ++ fetchedOf w remaining st, sampled),
            nConnect := st.nConnect + 1,
            nAppend := st.nAppend + 1,
            trace := st.trace ++ [EEvent.saveCp (st.processed ++ fetchedOf w remaining st)] }

def extLoop (w : World) (remaining sampled : List String) : Nat → St → St
  | 0, st => st
  | fuel + 1, st =>
    if st.batchStart < remaining.length then
      match w.connect st.nConnect with
      | ConnRes.imapErr =>
        extLoop w remaining sampled fuel { st with nConnect := st.nConnect + 1 }
      | ConnRes.genErr =>
        extLoop w remaining sampled fuel
          { st with nConnect := st.nConnect + 1,
                    cpFile := some (st.processed, sampled),
                    trace := st.trace ++ [EEvent.saveCp st.processed] }
      | ConnRes.ok =>
        if w.appendOk st.nAppend then
          extLoop w remaining sampled fuel (okBatch w remaining sampled st)
        else
          extLoop w remaining sampled fuel (appendFailBatch w remaining sampled st)
    else
      { st with finished := true,
                cpFile := none,
                trace := st.trace ++ (if st.cpFile.isSome then [EEvent.removeCp] else []) }

/-- The resume path of `main` (lines 105-193): compute
`remaining_ids = [id for id in sampled_ids if id not in processed_ids]`
(line 106), return early when nothing remains (lines 108-110, leaving the
checkpoint file untouched), else run the batch loop. -/
def ext_main_resume (w : World) (processed0 sampled : List String)
    (csv0 : List ExtRecord) (cp0 : Option (List String × List String))
    (fuel : Nat) : St :=
  let remaining := sampled.filter (fun id => id ∉ processed0)
  let st0 : St :=
    { processed := processed0, csv := csv0, cpFile := cp0, batchStart := 0,
      nConnect := 0, nAppend := 0, trace := [], finished := false }
  if remaining.isEmpty then st0
  else extLoop w remaining sampled fuel st0

/-- The claim's checkpoint-durability predicate over an extraction trace:
every id in every saved checkpoint must occur in some earlier flushed CSV
batch (the accumulator carries the ids flushed so far, seeded with the ids the
loaded checkpoint already covered). -/
def saveOnlyFlushedE (flushedSoFar : List String) : List EEvent → Bool
  | [] => true
  | EEvent.flushCsv ids :: es => saveOnlyFlushedE (flushedSoFar ++ ids) es
  | EEvent.saveCp ids :: es =>
    ids.all (fun id => flushedSoFar.contains id) && saveOnlyFlushedE flushedSoFar es
  | EEvent.removeCp :: es => saveOnlyFlushedE flushedSoFar es

end Ext

/-! ## mbox_to_csv.py

`extract_text_from_message` (lines 70-92) with an explicit model of Python's
`bytes.decode(charset, errors='ignore')`: a UTF-8 decoder over byte lists with
the two error modes relevant here — `ignore` (what the source passes: invalid
byte sequences are dropped) and `replace` (what the spec asserts: one U+FFFD
per invalid sequence).  A charset we do not model decodes to `none`, standing
for a codec lookup failure, which the source's handlers absorb. -/

namespace Mbox

/-- Python decode error handling mode. -/
inductive ErrMode where
  | ignore : ErrMode
  | replace : ErrMode
deriving DecidableEq

/-- Continuation bytes required after a lead byte; `none` for an invalid lead
byte (0x80-0xC1 continuations/overlongs, 0xF5-0xFF out of range). -/
def contNeed (b : Nat) : Option Nat :=
  if b < 0x80 then some 0
  else if 0xC2 ≤ b ∧ b ≤ 0xDF then some 1
  else if 0xE0 ≤ b ∧ b ≤ 0xEF then some 2
  else if 0xF0 ≤ b ∧ b ≤ 0xF4 then some 3
  else none

/-- Lower bound of the first continuation byte (tightened for 0xE0/0xF0 to
exclude overlong encodings). -/
def cont1Lo (b : Nat) : Nat :=
  if b = 0xE0 then 0xA0 else if b = 0xF0 then 0x90 else 0x80

/-- Upper bound of the first continuation byte (tightened for 0xED to exclude
surrogates and 0xF4 to cap at U+10FFFF). -/
def cont1Hi (b : Nat) : Nat :=
  if b = 0xED then 0x9F else if b = 0xF4 then 0x8F else 0xBF

/-- Count of plain continuation bytes (0x80-0xBF) at the head, up to `n`. -/
def countPlainConts : List Nat → Nat → Nat
  | _, 0 => 0
  | [], _ + 1 => 0
  | c :: rest, n + 1 =>
    if 0x80 ≤ c ∧ c ≤ 0xBF then 1 + countPlainConts rest n else 0

/-- Count of valid continuation bytes following lead `b`, up to `need`
(the length of the maximal subpart minus the lead byte). -/
def validConts (b : Nat) (bs : List Nat) (need : Nat) : Nat :=
  match need, bs with
  | 0, _ => 0
  | _ + 1, [] => 0
  | n + 1, c :: rest =>
    if cont1Lo b ≤ c ∧ c ≤ cont1Hi b then 1 + countPlainConts rest n else 0

/-- Payload bits of a lead byte. -/
def leadVal (b : Nat) : Nat :=
  if b < 0x80 then b
  else if b ≤ 0xDF then b - 0xC0
  else if b ≤ 0xEF then b - 0xE0
  else b - 0xF0

/-- Code point of a valid sequence: lead bits followed by 6 bits per
continuation byte. -/
def codepointOf (b : Nat) (conts : List Nat) : Nat :=
  conts.foldl (fun acc c => acc * 64 + (c - 0x80)) (leadVal b)

/-- What an invalid sequence contributes: nothing under `ignore`, one
replacement character U+FFFD under `replace`. -/
def errOut : ErrMode → List Char
  | ErrMode.ignore => []
  | ErrMode.replace => [Char.ofNat 0xFFFD]

/-- Fuel-indexed UTF-8 decoding of a byte list; each step consumes at least
one byte, so fuel `bs.length` suffices. -/
def utf8DecodeAux (mode : ErrMode) : Nat → List Nat → List Char
  | 0, _ => []
  | _ + 1, [] => []
  | fuel + 1, b :: bs =>
    match contNeed b with
    | none => errOut mode ++ utf8DecodeAux mode fuel bs
    | some 0 => Char.ofNat b :: utf8DecodeAux mode fuel bs
    | some (n + 1) =>
      let k := validConts b bs (n + 1)
      if k = n + 1 then
        Char.ofNat (codepointOf b (bs.take (n + 1))) :: utf8DecodeAux mode fuel (bs.drop (n + 1))
      else
        errOut mode ++ utf8DecodeAux mode fuel (bs.drop k)

/-- `bytes.decode('utf-8', errors=mode)`. -/
def utf8Decode (mode : ErrMode) (bs : List Nat) : String :=
  String.mk (utf8DecodeAux mode (bs.length + 1) bs)

/-- `payload.decode(charset, errors=mode)`: UTF-8 for the usual aliases;
`none` models a codec lookup failure for a charset outside the model, which
the caller's `except` absorbs. -/
def pyDecode (charset : String) (mode : ErrMode) (bs : List Nat) : Option String :=
  if charset = "utf-8" || charset = "utf8" || charset = "UTF-8" then
    some (utf8Decode mode bs)
  else none

/-- One MIME part as the source reads it: `get_content_type()`,
`get_content_charset()` (None when undeclared), `get_payload(decode=True)`
(None when absent). -/
structure Part where
  contentType : String
  charsetDecl : Option String
  payload : Option (List Nat)

/-- A parsed message: multipart with its `walk()` sequence of parts, or
single-part. -/
inductive PyMsg where
  | multipart (parts : List Part) : PyMsg
  | single (p : Part) : PyMsg

/-- What one loop iteration (lines 75-83) contributes for a part: its decoded
payload when the part is `text/plain` with a truthy payload that decodes
without raising; `none` otherwise (wrong content type, absent or empty
payload after `if payload:`, or a decode exception caught by the handler). -/
def takenPlain (p : Part) : Option String :=
  if p.contentType = "text/plain" then
    match p.payload with
    | some bs =>
      if bs ≠ [] then pyDecode (p.charsetDecl.getD "utf-8") ErrMode.ignore bs
      else none
    | none => none
  else none

/-- The `for part in msg.walk()` loop (lines 74-83): `break` fires only when
an iteration assigned a decoded body; otherwise the loop moves to the next
part. -/
def walkPlain : List Part → String
  | [] => ""
  | p :: ps =>
    match takenPlain p with
    | some s => s
    | none => walkPlain ps

/-- `extract_text_from_message` (lines 70-92). -/
def extract_text_from_message : PyMsg → String
  | PyMsg.multipart parts => walkPlain parts
  | PyMsg.single p =>
    let charset := p.charsetDecl.getD "utf-8"
    match p.payload with
    | some bs =>
      if bs ≠ [] then
        match pyDecode charset ErrMode.ignore bs with
        | some s => s
        | none => ""
      else ""
    | none => ""

/-- Modelled from the spec claim for comparison: "return the decoded payload
of the first part whose content type is exactly plain text, stopping at the
first match" — the first plain-text part is taken regardless of whether its
payload is absent, empty, or undecodable. -/
def firstPlainDecoded (parts : List Part) : String :=
  match parts.find? (fun p => p.contentType = "text/plain") with
  | some p =>
    match p.payload with
    | some bs => (pyDecode (p.charsetDecl.getD "utf-8") ErrMode.ignore bs).getD ""
    | none => ""
  | none => ""

end Mbox


/-! ## Trace predicates and concrete instances -/

namespace Ann

/-- Ids of rows whose `body` cell is not a string (these are marked processed
without any output record, lines 163-167). -/
def nanIds (rows : List Row) : List String :=
  (rows.filter (fun r => r.body = BodyVal.nonString)).map Row.message_id

/-- Checkpoint durability over an annotation trace: every id in every saved
checkpoint is either covered by the loaded checkpoint `C0`, was skipped as a
non-string body, or had its record flushed earlier in the trace (the
accumulator `fl` carries the ids flushed so far). -/
def saveOk (C0 : Finset String) (nans : List String) : List String → List AEvent → Prop
  | _, [] => True
  | fl, AEvent.flush id :: es => saveOk C0 nans (id :: fl) es
  | fl, AEvent.save S :: es =>
    (∀ id ∈ S, id ∈ C0 ∨ id ∈ nans ∨ id ∈ fl) ∧ saveOk C0 nans fl es

/-- Flushed ids of a trace, newest first, appended to an accumulator (the
shape `saveOk` threads). -/
def flushAcc (es : List AEvent) (fl : List String) : List String :=
  es.foldl (fun acc e => match e with | AEvent.flush id => id :: acc | _ => acc) fl

end Ann

/-! Concrete instances used by the counterexamples and witnesses. -/

/-- World for the C1 counterexample: connections always succeed, every fetch
succeeds, and the first `append_to_csv` call raises (the batch-level transient
failure while appending the batch's records); the retry then succeeds. -/
def c1World : Ext.World :=
  { connect := fun _ => Ext.ConnRes.ok
    fetch := fun _ => some "hello"
    appendOk := fun n => decide (n ≠ 0) }

/-- An oracle whose scoring call always succeeds with a well-formed response. -/
def okOracle : String → Nat → Ann.APIResult :=
  fun _ _ => Ann.APIResult.ok "\x7b\"importance\":3,\"reason\":\"ok\",\"confidence\":0.9\x7d"

/-- Work set `{a,b,c,d}` with string bodies. -/
def c2Rows : List Ann.Row :=
  [⟨"a", Ann.BodyVal.str "body a"⟩, ⟨"b", Ann.BodyVal.str "body b"⟩,
   ⟨"c", Ann.BodyVal.str "body c"⟩, ⟨"d", Ann.BodyVal.str "body d"⟩]

/-- Annotation input for the C2 witness: checkpoint `{a,b}`, work set
`{a,b,c,d}`. -/
def c2Inp : Ann.AnnInput :=
  { rows := c2Rows, outputExists := true,
    prevOutput := [], cpFile := Ann.CpFile.saved {"a", "b"} }

/-- Extraction world in which every external effect succeeds. -/
def allOkExtWorld : Ext.World :=
  { connect := fun _ => Ext.ConnRes.ok
    fetch := fun id => some ("body-" ++ id)
    appendOk := fun _ => true }

/-- Annotation input for the C3 counterexample: a single row whose body cell
is not a string (a NaN from an empty CSV cell). -/
def c3Inp : Ann.AnnInput :=
  { rows := [⟨"a", Ann.BodyVal.nonString⟩], outputExists := false,
    prevOutput := [], cpFile := Ann.CpFile.absent }

/-- Oracle that always returns the unparseable response of the C4 claim. -/
def c4Oracle : String → Nat → Ann.APIResult :=
  fun _ _ => Ann.APIResult.ok "not json at all"

/-- The fenced, newline-wrapped response of the C5 claim. -/
def c5Response : String :=
  "```\n\x7b\"importance\":4,\"reason\":\"urgent bill\",\"confidence\":0.8\x7d\n```"

/-- Oracle for the C6 counterexample: every call for item `a` raises, calls
for other items succeed. -/
def c6Oracle : String → Nat → Ann.APIResult :=
  fun id _ => if id = "a" then Ann.APIResult.exc else Ann.APIResult.ok "x"

/-- Annotation input for the C6 counterexample: items `a` and `b`, no
checkpoint. -/
def c6Inp : Ann.AnnInput :=
  { rows := [⟨"a", Ann.BodyVal.str "body a"⟩, ⟨"b", Ann.BodyVal.str "body b"⟩],
    outputExists := false, prevOutput := [], cpFile := Ann.CpFile.absent }

/-- A message whose single part is plain text declared UTF-8 with the byte
0xFF (invalid in UTF-8) between 'a' and 'b'. -/
def c7Msg : Mbox.PyMsg :=
  Mbox.PyMsg.single ⟨"text/plain", some "utf-8", some [0x61, 0xFF, 0x62]⟩

/-- An HTML part. -/
def c8Html : Mbox.Part :=
  ⟨"text/html", some "utf-8", some [60, 112, 62, 104, 105, 60, 47, 112, 62]⟩

/-- A plain-text part with an empty payload. -/
def c8EmptyPlain : Mbox.Part := ⟨"text/plain", some "utf-8", some []⟩

/-- A plain-text part whose payload decodes to "hello". -/
def c8Hello : Mbox.Part := ⟨"text/plain", some "utf-8", some [104, 101, 108, 108, 111]⟩

/-- Annotation input for the C9 counterexample: one unprocessed item, so the
run opens the output file, annotates it, and completes normally. -/
def c9Inp : Ann.AnnInput :=
  { rows := [⟨"m", Ann.BodyVal.str "body m"⟩], outputExists := false,
    prevOutput := [], cpFile := Ann.CpFile.absent }

/-- A previously appended output record. -/
def c10Rec : Ann.Record :=
  { message_id := "x", email_body := "y",
    importance := JValue.num 3, reason := JValue.str "r", confidence := JValue.num 1 }

/-- Annotation input for the C10 counterexample: the checkpoint file is
absent, the output file exists with one record from a previous run, and the
input CSV has no rows. -/
def c10Inp : Ann.AnnInput :=
  { rows := [], outputExists := true, prevOutput := [c10Rec],
    cpFile := Ann.CpFile.absent }


/-! ## Helper lemmas -/

open Ann in
/-- A written record carries the row's message id (`mkRecord` copies it). -/
theorem processItem_wrote_mid {o : String → Nat → APIResult} {r : Row}
    {rec : Record} (h : processItem o r = ItemStep.wrote rec) :
    rec.message_id = r.message_id := by
  cases hb : r.body with
  | nonString => simp [processItem, hb] at h
  | str body =>
    cases hc : chatCall (o r.message_id) with
    | none => simp [processItem, hb, hc] at h
    | some content =>
      cases ho : parse_json_response (pyStrip content) with
      | obj kvs =>
        simp [processItem, hb, hc, ho, mkRecord] at h
        rw [← h]
      | null => simp [processItem, hb, hc, ho, mkRecord] at h
      | bool b => simp [processItem, hb, hc, ho, mkRecord] at h
      | num q => simp [processItem, hb, hc, ho, mkRecord] at h
      | str s => simp [processItem, hb, hc, ho, mkRecord] at h
      | arr xs => simp [processItem, hb, hc, ho, mkRecord] at h

open Ann in
/-- A skipped item has a non-string body. -/
theorem processItem_skip_body {o : String → Nat → APIResult} {r : Row}
    (h : processItem o r = ItemStep.skipNonString) :
    r.body = BodyVal.nonString := by
  cases hb : r.body with
  | nonString => rfl
  | str body =>
    cases hc : chatCall (o r.message_id) with
    | none => simp [processItem, hb, hc] at h
    | some content =>
      cases ho : parse_json_response (pyStrip content) with
      | obj kvs => simp [processItem, hb, hc, ho, mkRecord] at h
      | null => simp [processItem, hb, hc, ho, mkRecord] at h
      | bool b => simp [processItem, hb, hc, ho, mkRecord] at h
      | num q => simp [processItem, hb, hc, ho, mkRecord] at h
      | str s => simp [processItem, hb, hc, ho, mkRecord] at h
      | arr xs => simp [processItem, hb, hc, ho, mkRecord] at h


open Ann in
/-- When every remaining row writes a record, the records' ids are exactly the
rows' ids in order, and the final processed set is the initial one united with
the rows' ids. -/
theorem annLoop_success (o : String → Nat → APIResult) :
    ∀ (rs : List Row) (p : Finset String) (bc : Nat),
      (∀ r ∈ rs, ∃ rec, processItem o r = ItemStep.wrote rec) →
      ((annLoop o rs p bc).2.1).map Record.message_id = rs.map Row.message_id ∧
      (annLoop o rs p bc).1 = p ∪ (rs.map Row.message_id).toFinset
  | [], p, bc, _ => by simp [annLoop]
  | r :: rs, p, bc, hok => by
    obtain ⟨rec, hrec⟩ := hok r (by simp)
    have hmid : rec.message_id = r.message_id := processItem_wrote_mid hrec
    have ih0 := annLoop_success o rs (insert r.message_id p) 0
      (fun r' hr' => hok r' (by simp [hr']))
    have ihb := annLoop_success o rs (insert r.message_id p) (bc + 1)
      (fun r' hr' => hok r' (by simp [hr']))
    by_cases hsz : ANN_BATCH_SIZE ≤ bc + 1
    · simp only [annLoop, hrec, if_pos hsz, List.map_cons, List.toFinset_cons]
      refine ⟨by simp [ih0.1, hmid], ?_⟩
      rw [ih0.2]
      simp [Finset.insert_union, Finset.union_insert]
    · simp only [annLoop, hrec, if_neg hsz, List.map_cons, List.toFinset_cons]
      refine ⟨by simp [ihb.1, hmid], ?_⟩
      rw [ihb.2]
      simp [Finset.insert_union, Finset.union_insert]


open Ann in
/-- Every record the loop emits comes from some row that wrote it. -/
theorem annLoop_mem_rec (o : String → Nat → APIResult) :
    ∀ (rs : List Row) (p : Finset String) (bc : Nat) (rec : Record),
      rec ∈ (annLoop o rs p bc).2.1 →
      ∃ r ∈ rs, processItem o r = ItemStep.wrote rec
  | [], p, bc, rec => by simp [annLoop]
  | r :: rs, p, bc, rec => by
    intro hmem
    cases hstep : processItem o r with
    | skipNonString =>
      simp only [annLoop, hstep] at hmem
      obtain ⟨r', hr', hw⟩ := annLoop_mem_rec o rs (insert r.message_id p) bc rec hmem
      exact ⟨r', by simp [hr'], hw⟩
    | dropError =>
      simp only [annLoop, hstep] at hmem
      obtain ⟨r', hr', hw⟩ := annLoop_mem_rec o rs p bc rec hmem
      exact ⟨r', by simp [hr'], hw⟩
    | wrote rec0 =>
      by_cases hsz : ANN_BATCH_SIZE ≤ bc + 1
      · simp only [annLoop, hstep, if_pos hsz, List.mem_cons] at hmem
        rcases hmem with rfl | hmem
        · exact ⟨r, by simp, hstep⟩
        · obtain ⟨r', hr', hw⟩ := annLoop_mem_rec o rs (insert r.message_id p) 0 rec hmem
          exact ⟨r', by simp [hr'], hw⟩
      · simp only [annLoop, hstep, if_neg hsz, List.mem_cons] at hmem
        rcases hmem with rfl | hmem
        · exact ⟨r, by simp, hstep⟩
        · obtain ⟨r', hr', hw⟩ := annLoop_mem_rec o rs (insert r.message_id p) (bc + 1) rec hmem
          exact ⟨r', by simp [hr'], hw⟩

open Ann in
/-- The processed set only grows. -/
theorem annLoop_processed_mono (o : String → Nat → APIResult) :
    ∀ (rs : List Row) (p : Finset String) (bc : Nat),
      p ⊆ (annLoop o rs p bc).1
  | [], p, bc => by simp [annLoop]
  | r :: rs, p, bc => by
    cases hstep : processItem o r with
    | skipNonString =>
      simp only [annLoop, hstep]
      exact (Finset.subset_insert _ _).trans
        (annLoop_processed_mono o rs (insert r.message_id p) bc)
    | dropError =>
      simp only [annLoop, hstep]
      exact annLoop_processed_mono o rs p bc
    | wrote rec0 =>
      by_cases hsz : ANN_BATCH_SIZE ≤ bc + 1
      · simp only [annLoop, hstep, if_pos hsz]
        exact (Finset.subset_insert _ _).trans
          (annLoop_processed_mono o rs (insert r.message_id p) 0)
      · simp only [annLoop, hstep, if_neg hsz]
        exact (Finset.subset_insert _ _).trans
          (annLoop_processed_mono o rs (insert r.message_id p) (bc + 1))

open Ann in
/-- Membership in the final processed set comes from the initial set or from a
row that was not dropped by the per-item error handler. -/
theorem annLoop_mem_processed (o : String → Nat → APIResult) :
    ∀ (rs : List Row) (p : Finset String) (bc : Nat) (a : String),
      a ∈ (annLoop o rs p bc).1 →
      a ∈ p ∨ ∃ r ∈ rs, r.message_id = a ∧ processItem o r ≠ ItemStep.dropError
  | [], p, bc, a => by simp [annLoop]
  | r :: rs, p, bc, a => by
    intro hmem
    cases hstep : processItem o r with
    | skipNonString =>
      simp only [annLoop, hstep] at hmem
      rcases annLoop_mem_processed o rs (insert r.message_id p) bc a hmem with hin | ⟨r', hr', hmid, hnd⟩
      · rcases Finset.mem_insert.mp hin with rfl | hp
        · exact Or.inr ⟨r, by simp, rfl, by simp [hstep]⟩
        · exact Or.inl hp
      · exact Or.inr ⟨r', by simp [hr'], hmid, hnd⟩
    | dropError =>
      simp only [annLoop, hstep] at hmem
      rcases annLoop_mem_processed o rs p bc a hmem with hp | ⟨r', hr', hmid, hnd⟩
      · exact Or.inl hp
      · exact Or.inr ⟨r', by simp [hr'], hmid, hnd⟩
    | wrote rec0 =>
      by_cases hsz : ANN_BATCH_SIZE ≤ bc + 1
      · simp only [annLoop, hstep, if_pos hsz] at hmem
        rcases annLoop_mem_processed o rs (insert r.message_id p) 0 a hmem with hin | ⟨r', hr', hmid, hnd⟩
        · rcases Finset.mem_insert.mp hin with rfl | hp
          · exact Or.inr ⟨r, by simp, rfl, by simp [hstep]⟩
          · exact Or.inl hp
        · exact Or.inr ⟨r', by simp [hr'], hmid, hnd⟩
      · simp only [annLoop, hstep, if_neg hsz] at hmem
        rcases annLoop_mem_processed o rs (insert r.message_id p) (bc + 1) a hmem with hin | ⟨r', hr', hmid, hnd⟩
        · rcases Finset.mem_insert.mp hin with rfl | hp
          · exact Or.inr ⟨r, by simp, rfl, by simp [hstep]⟩
          · exact Or.inl hp
        · exact Or.inr ⟨r', by simp [hr'], hmid, hnd⟩

open Ann in
/-- A row whose item step is not the per-item error path ends up processed. -/
theorem annLoop_processed_of_row (o : String → Nat → APIResult) :
    ∀ (rs : List Row) (p : Finset String) (bc : Nat) (r : Row),
      r ∈ rs → processItem o r ≠ ItemStep.dropError →
      r.message_id ∈ (annLoop o rs p bc).1
  | [], p, bc, r => by simp
  | r0 :: rs, p, bc, r => by
    intro hr hnd
    rcases List.mem_cons.mp hr with rfl | hr'
    · cases hstep : processItem o r with
      | skipNonString =>
        simp only [annLoop, hstep]
        exact annLoop_processed_mono o rs _ bc (Finset.mem_insert_self _ _)
      | dropError => exact absurd hstep hnd
      | wrote rec0 =>
        by_cases hsz : ANN_BATCH_SIZE ≤ bc + 1
        · simp only [annLoop, hstep, if_pos hsz]
          exact annLoop_processed_mono o rs _ 0 (Finset.mem_insert_self _ _)
        · simp only [annLoop, hstep, if_neg hsz]
          exact annLoop_processed_mono o rs _ (bc + 1) (Finset.mem_insert_self _ _)
    · cases hstep : processItem o r0 with
      | skipNonString =>
        simp only [annLoop, hstep]
        exact annLoop_processed_of_row o rs _ bc r hr' hnd
      | dropError =>
        simp only [annLoop, hstep]
        exact annLoop_processed_of_row o rs p bc r hr' hnd
      | wrote rec0 =>
        by_cases hsz : ANN_BATCH_SIZE ≤ bc + 1
        · simp only [annLoop, hstep, if_pos hsz]
          exact annLoop_processed_of_row o rs _ 0 r hr' hnd
        · simp only [annLoop, hstep, if_neg hsz]
          exact annLoop_processed_of_row o rs _ (bc + 1) r hr' hnd


open Ann in
/-- `saveOk` splits over trace concatenation, threading the flushed ids. -/
theorem saveOk_append (C0 : Finset String) (nans : List String) :
    ∀ (es es' : List AEvent) (fl : List String),
      saveOk C0 nans fl (es ++ es') ↔
        (saveOk C0 nans fl es ∧ saveOk C0 nans (flushAcc es fl) es')
  | [], es', fl => by simp [saveOk, flushAcc]
  | AEvent.flush id :: es, es', fl => by
    simp only [List.cons_append, saveOk, flushAcc, List.foldl_cons]
    exact saveOk_append C0 nans es es' (id :: fl)
  | AEvent.save S :: es, es', fl => by
    simp only [List.cons_append, saveOk, flushAcc, List.foldl_cons]
    rw [List.append_eq, saveOk_append C0 nans es es' fl]
    tauto

open Ann in
/-- Invariant of the annotation loop: every checkpoint the loop saves contains
only ids covered by `C0`, skipped as non-string bodies, or flushed earlier;
and the final processed set is likewise covered once the loop's own flushes
are accounted for. -/
theorem annLoop_saveOk (o : String → Nat → APIResult) (C0 : Finset String)
    (nans : List String) :
    ∀ (rs : List Row) (p : Finset String) (bc : Nat) (fl : List String),
      (∀ id ∈ p, id ∈ C0 ∨ id ∈ nans ∨ id ∈ fl) →
      (∀ r ∈ rs, r.body = BodyVal.nonString → r.message_id ∈ nans) →
      saveOk C0 nans fl (annLoop o rs p bc).2.2 ∧
      (∀ id ∈ (annLoop o rs p bc).1,
        id ∈ C0 ∨ id ∈ nans ∨ id ∈ flushAcc (annLoop o rs p bc).2.2 fl)
  | [], p, bc, fl, hp, _ => by
    simpa [annLoop, saveOk, flushAcc] using hp
  | r :: rs, p, bc, fl, hp, hn => by
    cases hstep : processItem o r with
    | skipNonString =>
      simp only [annLoop, hstep]
      refine annLoop_saveOk o C0 nans rs (insert r.message_id p) bc fl ?_ ?_
      · intro id hid
        rcases Finset.mem_insert.mp hid with rfl | hid'
        · exact Or.inr (Or.inl (hn r (by simp) (processItem_skip_body hstep)))
        · exact hp id hid'
      · exact fun r' hr' => hn r' (by simp [hr'])
    | dropError =>
      simp only [annLoop, hstep]
      exact annLoop_saveOk o C0 nans rs p bc fl hp (fun r' hr' => hn r' (by simp [hr']))
    | wrote rec0 =>
      have hp' : ∀ id ∈ insert r.message_id p,
          id ∈ C0 ∨ id ∈ nans ∨ id ∈ r.message_id :: fl := by
        intro id hid
        rcases Finset.mem_insert.mp hid with rfl | hid'
        · exact Or.inr (Or.inr (by simp))
        · rcases hp id hid' with h | h | h <;> simp [h]
      have hn' : ∀ r' ∈ rs, r'.body = BodyVal.nonString → r'.message_id ∈ nans :=
        fun r' hr' => hn r' (by simp [hr'])
      by_cases hsz : ANN_BATCH_SIZE ≤ bc + 1
      · simp only [annLoop, hstep, if_pos hsz]
        have ih := annLoop_saveOk o C0 nans rs (insert r.message_id p) 0
          (r.message_id :: fl) hp' hn'
        refine ⟨?_, ?_⟩
        · simp only [saveOk]
          exact ⟨hp', ih.1⟩
        · intro id hid
          simpa [flushAcc] using ih.2 id hid
      · simp only [annLoop, hstep, if_neg hsz]
        have ih := annLoop_saveOk o C0 nans rs (insert r.message_id p) (bc + 1)
          (r.message_id :: fl) hp' hn'
        refine ⟨?_, ?_⟩
        · simp only [saveOk]
          exact ih.1
        · intro id hid
          simpa [flushAcc] using ih.2 id hid

open Ann in
/-- With distinct row ids, the number of remaining rows is the cardinality of
the id set minus the checkpointed set. -/
theorem remaining_length_card (C : Finset String) :
    ∀ (rows : List Row), (rows.map Row.message_id).Nodup →
      (remainingOf rows C).length = ((rows.map Row.message_id).toFinset \ C).card
  | [], _ => by simp [remainingOf]
  | r :: rows, h => by
    have hnd : r.message_id ∉ rows.map Row.message_id ∧ (rows.map Row.message_id).Nodup := by
      rw [List.map_cons, List.nodup_cons] at h
      exact h
    by_cases hC : r.message_id ∈ C
    · rw [show remainingOf (r :: rows) C = remainingOf rows C by
        simp [remainingOf, List.filter_cons, hC]]
      rw [remaining_length_card C rows hnd.2]
      simp [Finset.insert_sdiff_of_mem _ hC]
    · rw [show remainingOf (r :: rows) C = r :: remainingOf rows C by
        simp [remainingOf, List.filter_cons, hC]]
      simp only [List.length_cons, remaining_length_card C rows hnd.2, List.map_cons,
        List.toFinset_cons]
      rw [Finset.insert_sdiff_of_not_mem _ hC, Finset.card_insert_of_not_mem]
      intro hmem
      exact hnd.1 (by simpa using (Finset.mem_sdiff.mp hmem).1)

open Ann in
/-- Three failing calls exhaust the request retry loop. -/
theorem chatCall_exc {o : Nat → APIResult} (h : ∀ k, k < 3 → o k = APIResult.exc) :
    chatCall o = none := by
  have h0 := h 0 (by norm_num)
  have h1 := h 1 (by norm_num)
  have h2 := h 2 (by norm_num)
  simp [chatCall, apiAttempts, h0, h1, h2]

open Ann in
/-- A string-bodied row whose calls all fail takes the per-item error path. -/
theorem processItem_dropError_of {o : String → Nat → APIResult} {r : Row} {b : String}
    (hb : r.body = BodyVal.str b) (hc : chatCall (o r.message_id) = none) :
    processItem o r = ItemStep.dropError := by
  simp [processItem, hb, hc]

/-- A finished extraction loop has removed the checkpoint file. -/
theorem extLoop_finished_cp (w : Ext.World) (remaining sampled : List String) :
    ∀ (fuel : Nat) (st : Ext.St), st.finished = false →
      (Ext.extLoop w remaining sampled fuel st).finished = true →
      (Ext.extLoop w remaining sampled fuel st).cpFile = none
  | 0, st, hf, hfin => by
    simp only [Ext.extLoop] at hfin
    rw [hf] at hfin
    exact absurd hfin (by simp)
  | fuel + 1, st, hf, hfin => by
    by_cases hlt : st.batchStart < remaining.length
    · cases hconn : w.connect st.nConnect with
      | imapErr =>
        simp only [Ext.extLoop, if_pos hlt, hconn] at hfin ⊢
        exact extLoop_finished_cp w remaining sampled fuel _ (by simp [hf]) hfin
      | genErr =>
        simp only [Ext.extLoop, if_pos hlt, hconn] at hfin ⊢
        exact extLoop_finished_cp w remaining sampled fuel _ (by simp [hf]) hfin
      | ok =>
        by_cases happ : w.appendOk st.nAppend
        · simp only [Ext.extLoop, if_pos hlt, hconn, happ, if_true] at hfin ⊢
          exact extLoop_finished_cp w remaining sampled fuel _ (by simp [Ext.okBatch, hf]) hfin
        · simp only [Ext.extLoop, if_pos hlt, hconn, happ, if_false] at hfin ⊢
          exact extLoop_finished_cp w remaining sampled fuel _
            (by simp [Ext.appendFailBatch, hf]) hfin
    · simp [Ext.extLoop, hlt]

/-- A fully successful extraction loop finishes, appends one CSV record per
remaining id in order, marks them all processed, and removes the checkpoint
file. -/
theorem extLoop_success (w : Ext.World) (remaining sampled : List String)
    (hc : ∀ n, w.connect n = Ext.ConnRes.ok)
    (ha : ∀ n, w.appendOk n = true)
    (hf : ∀ id, (w.fetch id).isSome) :
    ∀ (fuel : Nat) (st : Ext.St),
      remaining.length - st.batchStart < fuel →
      (Ext.extLoop w remaining sampled fuel st).finished = true ∧
      (Ext.extLoop w remaining sampled fuel st).csv =
        st.csv ++ (remaining.drop st.batchStart).map
          (fun id => ({ message_id := id, body := (w.fetch id).getD "" } : Ext.ExtRecord)) ∧
      (Ext.extLoop w remaining sampled fuel st).processed =
        st.processed ++ remaining.drop st.batchStart ∧
      (Ext.extLoop w remaining sampled fuel st).cpFile = none
  | 0, st, h => absurd h (by omega)
  | fuel + 1, st, h => by
    by_cases hlt : st.batchStart < remaining.length
    · have hconn := hc st.nConnect
      have happ := ha st.nAppend
      have h500 : Ext.EXT_BATCH_SIZE = 500 := rfl
      have hfet : Ext.fetchedOf w remaining st = Ext.batchOf remaining st :=
        List.filter_eq_self.mpr (fun id _ => hf id)
      have hbsge : st.batchStart + 1 ≤ Ext.batchEndOf remaining st := by
        unfold Ext.batchEndOf
        rw [h500]
        omega
      have hbsle : Ext.batchEndOf remaining st ≤ remaining.length := by
        unfold Ext.batchEndOf
        omega
      have hbs : (Ext.okBatch w remaining sampled st).batchStart =
          Ext.batchEndOf remaining st := by
        simp [Ext.okBatch]
      have harith : remaining.length - (Ext.okBatch w remaining sampled st).batchStart < fuel := by
        rw [hbs]
        omega
      have ih := extLoop_success w remaining sampled hc ha hf fuel
        (Ext.okBatch w remaining sampled st) harith
      have hsplit : Ext.batchOf remaining st ++ remaining.drop (Ext.batchEndOf remaining st) =
          remaining.drop st.batchStart := by
        unfold Ext.batchOf
        have hd : remaining.drop (Ext.batchEndOf remaining st) =
            (remaining.drop st.batchStart).drop (Ext.batchEndOf remaining st - st.batchStart) := by
          rw [List.drop_drop]
          congr 1
          omega
        rw [hd, List.take_append_drop]
      simp only [Ext.extLoop, if_pos hlt, hconn, happ, if_true]
      refine ⟨ih.1, ?_, ?_, ih.2.2.2⟩
      · rw [ih.2.1]
        simp only [Ext.okBatch, Ext.recordsOf, hfet, hbs]
        rw [List.append_assoc, ← List.map_append, hsplit]
      · rw [ih.2.2.1]
        simp only [Ext.okBatch, hfet, hbs]
        rw [List.append_assoc, hsplit]
    · have hdrop : remaining.drop st.batchStart = [] :=
        List.drop_eq_nil_of_le (by omega)
      simp [Ext.extLoop, hlt, hdrop]

/-- The part loop stops at a part that contributes a decoded payload. -/
theorem walkPlain_cons_some {p : Mbox.Part} {s : String}
    (h : Mbox.takenPlain p = some s) (ps : List Mbox.Part) :
    Mbox.walkPlain (p :: ps) = s := by
  simp [Mbox.walkPlain, h]

/-- The part loop moves past a part that contributes nothing. -/
theorem walkPlain_cons_none {p : Mbox.Part}
    (h : Mbox.takenPlain p = none) (ps : List Mbox.Part) :
    Mbox.walkPlain (p :: ps) = Mbox.walkPlain ps := by
  simp [Mbox.walkPlain, h]

/-- The extractor returns the contribution of the first part that yields one,
scanning in order. -/
theorem walkPlain_first :
    ∀ (pre : List Mbox.Part) (p : Mbox.Part) (rest : List Mbox.Part) (s : String),
      (∀ q ∈ pre, Mbox.takenPlain q = none) → Mbox.takenPlain p = some s →
      Mbox.walkPlain (pre ++ p :: rest) = s
  | [], p, rest, s, _, hp => by
    rw [List.nil_append]
    exact walkPlain_cons_some hp rest
  | q :: pre, p, rest, s, hpre, hp => by
    rw [List.cons_append, walkPlain_cons_none (hpre q (by simp)) _]
    exact walkPlain_first pre p rest s (fun q' hq' => hpre q' (by simp [hq'])) hp

/-- On byte lists whose bytes are each either ASCII or invalid lead bytes,
decoding with `errors='ignore'` drops exactly the invalid bytes (nothing is
replaced, nothing raises). -/
theorem utf8Aux_ascii_invalid :
    ∀ (bs : List Nat) (fuel : Nat), bs.length ≤ fuel →
      (∀ b ∈ bs, b < 0x80 ∨ 0xF5 ≤ b) →
      Mbox.utf8DecodeAux Mbox.ErrMode.ignore fuel bs =
        (bs.filter (fun b => decide (b < 0x80))).map Char.ofNat
  | [], fuel, _, _ => by cases fuel <;> simp [Mbox.utf8DecodeAux]
  | b :: bs, 0, h, _ => absurd h (by simp)
  | b :: bs, fuel + 1, h, hb => by
    have ih := utf8Aux_ascii_invalid bs fuel (by simpa using h)
      (fun x hx => hb x (by simp [hx]))
    rcases hb b (by simp) with hlt | hge
    · have hcn : Mbox.contNeed b = some 0 := by simp [Mbox.contNeed, hlt]
      simp only [Mbox.utf8DecodeAux, hcn, ih]
      simp [List.filter_cons, hlt]
    · have hcn : Mbox.contNeed b = none := by
        unfold Mbox.contNeed
        split_ifs <;> first | rfl | omega
      simp only [Mbox.utf8DecodeAux, hcn, Mbox.errOut, List.nil_append, ih]
      simp [List.filter_cons, show ¬ b < 0x80 by omega]

/-! ## Claim theorems -/

/-- C1, counterexample.  In the extraction stage, run the resume path on work
set `{a}` with a world where the connection and the fetch succeed but the
first `append_to_csv` raises (a batch-level failure while appending the
batch's records).  The generic handler then saves a checkpoint that already
contains `a`, although no record of that batch was ever appended: the very
first durable event of the run is `saveCp ["a"]` with no flush before it, so
the claim's durability property is false on this run. -/
theorem C1_counterexample :
    (Ext.ext_main_resume c1World [] ["a"] [] (some ([], ["a"])) 3).trace =
      [Ext.EEvent.saveCp ["a"], Ext.EEvent.flushCsv ["a"],
       Ext.EEvent.saveCp ["a", "a"], Ext.EEvent.removeCp] ∧
    Ext.saveOnlyFlushedE []
      (Ext.ext_main_resume c1World [] ["a"] [] (some ([], ["a"])) 3).trace = false :=
  ⟨by rfl, by rfl⟩

/-- C1, amended: the checkpoint-after-flush discipline holds in the annotation
stage — every checkpoint saved by `annotate()` contains only ids that the
loaded checkpoint already covered, ids of rows skipped for a non-string body
(which get no record at all), or ids whose result record was appended and
flushed earlier in the run — while the extraction stage violates the claim
(its per-item `processed_ids.append` precedes the batch append, and its
error handler checkpoints that list; see the counterexample). -/
theorem C1_amended (oracle : String → Nat → Ann.APIResult) (inp : Ann.AnnInput) :
    Ann.saveOk (Ann.load_checkpoint inp.cpFile) (Ann.nanIds inp.rows) []
      (Ann.ann_run oracle inp).trace := by
  have hn : ∀ r ∈ Ann.remainingOf inp.rows (Ann.load_checkpoint inp.cpFile),
      r.body = Ann.BodyVal.nonString → r.message_id ∈ Ann.nanIds inp.rows := by
    intro r hr hb
    unfold Ann.remainingOf at hr
    exact List.mem_map.mpr
      ⟨r, List.mem_filter.mpr ⟨(List.mem_filter.mp hr).1, by simp [hb]⟩, rfl⟩
  unfold Ann.ann_run
  by_cases hemp : (Ann.remainingOf inp.rows (Ann.load_checkpoint inp.cpFile)).isEmpty = true
  · rw [if_pos hemp]
    exact trivial
  · rw [if_neg hemp]
    have hinv := annLoop_saveOk oracle (Ann.load_checkpoint inp.cpFile)
      (Ann.nanIds inp.rows)
      (Ann.remainingOf inp.rows (Ann.load_checkpoint inp.cpFile))
      (Ann.load_checkpoint inp.cpFile) 0 []
      (fun id hid => Or.inl hid) hn
    show Ann.saveOk _ _ []
      ((Ann.annLoop oracle (Ann.remainingOf inp.rows (Ann.load_checkpoint inp.cpFile))
          (Ann.load_checkpoint inp.cpFile) 0).2.2 ++
        [Ann.AEvent.save (Ann.annLoop oracle (Ann.remainingOf inp.rows
          (Ann.load_checkpoint inp.cpFile)) (Ann.load_checkpoint inp.cpFile) 0).1])
    rw [saveOk_append]
    exact ⟨hinv.1, fun id hid => hinv.2 id hid, trivial⟩

/-- C2: idempotent resume.  For any checkpoint set `C` and work set of rows,
a run in which every remaining item annotates successfully appends one record
per remaining row, in order — exactly `|W \ C|` records when the ids are
distinct — and the successfully resumed extraction stage likewise processes
and appends exactly the ids of the sampled set not already checkpointed. -/
theorem C2_theorem (oracle : String → Nat → Ann.APIResult)
    (rows : List Ann.Row) (C : Finset String) (outEx : Bool) (prev : List Ann.Record)
    (hok : ∀ r ∈ Ann.remainingOf rows C,
      ∃ rec, Ann.processItem oracle r = Ann.ItemStep.wrote rec)
    (w : Ext.World) (processed0 sampled : List String) (csv0 : List Ext.ExtRecord)
    (cp0 : Option (List String × List String)) (fuel : Nat)
    (hconn : ∀ n, w.connect n = Ext.ConnRes.ok)
    (happ : ∀ n, w.appendOk n = true)
    (hfetch : ∀ id, (w.fetch id).isSome)
    (hfuel : (sampled.filter (fun id => id ∉ processed0)).length < fuel) :
    ((Ann.ann_run oracle ⟨rows, outEx, prev, Ann.CpFile.saved C⟩).newRecords.map
        Ann.Record.message_id = (Ann.remainingOf rows C).map Ann.Row.message_id) ∧
    ((Ann.ann_run oracle ⟨rows, outEx, prev, Ann.CpFile.saved C⟩).newRecords.length =
      (Ann.remainingOf rows C).length) ∧
    ((rows.map Ann.Row.message_id).Nodup →
      (Ann.ann_run oracle ⟨rows, outEx, prev, Ann.CpFile.saved C⟩).newRecords.length =
        ((rows.map Ann.Row.message_id).toFinset \ C).card) ∧
    ((Ext.ext_main_resume w processed0 sampled csv0 cp0 fuel).csv =
      csv0 ++ (sampled.filter (fun id => id ∉ processed0)).map
        (fun id => ({ message_id := id, body := (w.fetch id).getD "" } : Ext.ExtRecord))) ∧
    ((Ext.ext_main_resume w processed0 sampled csv0 cp0 fuel).processed =
      processed0 ++ sampled.filter (fun id => id ∉ processed0)) := by
  have hmain : (Ann.ann_run oracle ⟨rows, outEx, prev, Ann.CpFile.saved C⟩).newRecords.map
      Ann.Record.message_id = (Ann.remainingOf rows C).map Ann.Row.message_id := by
    unfold Ann.ann_run
    by_cases hemp :
        (Ann.remainingOf rows (Ann.load_checkpoint (Ann.CpFile.saved C))).isEmpty = true
    · rw [if_pos hemp]
      have hnil : Ann.remainingOf rows C = [] := by
        have := hemp
        rwa [show Ann.load_checkpoint (Ann.CpFile.saved C) = C from rfl,
          List.isEmpty_iff] at this
      show ([] : List Ann.Record).map Ann.Record.message_id =
        (Ann.remainingOf rows C).map Ann.Row.message_id
      rw [hnil]
      rfl
    · rw [if_neg hemp]
      exact (annLoop_success oracle (Ann.remainingOf rows C) C 0 hok).1
  have hlen : (Ann.ann_run oracle ⟨rows, outEx, prev, Ann.CpFile.saved C⟩).newRecords.length =
      (Ann.remainingOf rows C).length := by
    have := congrArg List.length hmain
    simpa using this
  have hextr := extLoop_success w (sampled.filter (fun id => id ∉ processed0)) sampled
    hconn happ hfetch fuel
    { processed := processed0, csv := csv0, cpFile := cp0, batchStart := 0,
      nConnect := 0, nAppend := 0, trace := [], finished := false }
    (by simpa using hfuel)
  refine ⟨hmain, hlen, ?_, ?_, ?_⟩
  · intro hnd
    rw [hlen, remaining_length_card C rows hnd]
  · unfold Ext.ext_main_resume
    by_cases hemp : ((sampled.filter (fun id => id ∉ processed0)).isEmpty : Prop)
    · rw [if_pos hemp]
      have hnil : sampled.filter (fun id => id ∉ processed0) = [] :=
        List.isEmpty_iff.mp hemp
      rw [hnil]
      simp
    · rw [if_neg hemp]
      rw [hextr.2.1]
      simp
  · unfold Ext.ext_main_resume
    by_cases hemp : ((sampled.filter (fun id => id ∉ processed0)).isEmpty : Prop)
    · rw [if_pos hemp]
      have hnil : sampled.filter (fun id => id ∉ processed0) = [] :=
        List.isEmpty_iff.mp hemp
      rw [hnil]
      simp
    · rw [if_neg hemp]
      rw [hextr.2.2.1]
      simp

/-- C2, witness: checkpoint `{a,b}`, work set `{a,b,c,d}` — the resumed
annotation run appends exactly the two records `c`, `d`; the resumed
extraction run with checkpoint `{e}` over samples `{e,f}` appends exactly the
record for `f`. -/
theorem C2_witness :
    (Ann.ann_run okOracle c2Inp).newRecords.map Ann.Record.message_id = ["c", "d"] ∧
    (Ann.ann_run okOracle c2Inp).newRecords.length = 2 ∧
    (Ext.ext_main_resume allOkExtWorld ["e"] ["e", "f"] [] (some (["e"], ["e", "f"])) 2).csv =
      [⟨"f", "body-f"⟩] := by
  have h := C2_theorem okOracle c2Rows ({"a", "b"} : Finset String) true []
    (by
      intro r hr
      simp [Ann.remainingOf, c2Rows] at hr
      rcases hr with rfl | rfl
      · exact ⟨_, rfl⟩
      · exact ⟨_, rfl⟩)
    allOkExtWorld ["e"] ["e", "f"] [] (some (["e"], ["e", "f"])) 2
    (fun _n => rfl) (fun _k => rfl) (fun _id => rfl) (by decide)
  refine ⟨h.1.trans (by rfl), (h.2.1).trans (by rfl), (h.2.2.2.1).trans (by rfl)⟩

/-- Record/id filter lengths agree. -/
theorem filter_mid_length :
    ∀ (recs : List Ann.Record) (id : String),
      (recs.filter (fun rec => rec.message_id = id)).length =
        ((recs.map Ann.Record.message_id).filter (fun x => x = id)).length
  | [], _ => rfl
  | rec :: recs, id => by
    by_cases h : rec.message_id = id
    · simp [List.filter_cons, h, filter_mid_length recs id]
    · simp [List.filter_cons, h, filter_mid_length recs id]

/-- In a duplicate-free list, a member is matched exactly once. -/
theorem filter_eq_length_one :
    ∀ (l : List String) (id : String), l.Nodup → id ∈ l →
      (l.filter (fun x => x = id)).length = 1
  | [], _, _, h => absurd h (by simp)
  | a :: l, id, hnd, hmem => by
    have hnd' : a ∉ l ∧ l.Nodup := List.nodup_cons.mp hnd
    by_cases h : a = id
    · subst h
      have hzero : l.filter (fun x => x = a) = [] := by
        rw [List.filter_eq_nil_iff]
        intro b hb
        simp only [decide_eq_true_eq]
        intro hba
        exact hnd'.1 (hba ▸ hb)
      simp [List.filter_cons, hzero]
    · rcases List.mem_cons.mp hmem with rfl | hmem'
      · exact absurd rfl h
      · simp [List.filter_cons, h, filter_eq_length_one l id hnd'.2 hmem']

/-- The remaining rows keep distinct ids. -/
theorem remaining_ids_nodup (rows : List Ann.Row) (C : Finset String)
    (hnd : (rows.map Ann.Row.message_id).Nodup) :
    ((Ann.remainingOf rows C).map Ann.Row.message_id).Nodup := by
  have hsub : List.Sublist ((Ann.remainingOf rows C).map Ann.Row.message_id)
      (rows.map Ann.Row.message_id) := by
    unfold Ann.remainingOf
    exact (List.filter_sublist rows).map _
  exact hnd.sublist hsub

/-- The remaining `{c,d}` rows of the witness work set all annotate. -/
theorem c2Rows_ok :
    ∀ r ∈ Ann.remainingOf c2Rows ({"a", "b"} : Finset String),
      ∃ rec, Ann.processItem okOracle r = Ann.ItemStep.wrote rec := by
  intro r hr
  simp [Ann.remainingOf, c2Rows] at hr
  rcases hr with rfl | rfl
  · exact ⟨_, rfl⟩
  · exact ⟨_, rfl⟩

/-- C3, counterexample.  A row whose body cell is not a string (for example
pandas' NaN for an empty cell) is marked processed with **no** output record:
the run on the single row `a` appends nothing, yet `a` is in the processed
set — contradicting "a per-item error still produces a sentinel/failure
result record for that item ... never ... silently dropped without an output
record". -/
theorem C3_counterexample :
    (Ann.ann_run okOracle c3Inp).newRecords = [] ∧
    "a" ∈ (Ann.ann_run okOracle c3Inp).processed :=
  ⟨rfl, by decide⟩

/-- C3, amended.  (1) When every remaining item annotates successfully
(including malformed responses, which still yield a sentinel record) and the
ids are distinct, each remaining id gets exactly one appended record.
(2) A non-string body, however, is counted as processed while no record with
its id is appended; likewise items whose retries are exhausted are dropped
for the run (see C6).  -/
theorem C3_amended :
    (∀ (oracle : String → Nat → Ann.APIResult) (rows : List Ann.Row)
       (C : Finset String) (outEx : Bool) (prev : List Ann.Record),
      (∀ r ∈ Ann.remainingOf rows C,
        ∃ rec, Ann.processItem oracle r = Ann.ItemStep.wrote rec) →
      (rows.map Ann.Row.message_id).Nodup →
      ∀ id ∈ (Ann.remainingOf rows C).map Ann.Row.message_id,
        ((Ann.ann_run oracle ⟨rows, outEx, prev, Ann.CpFile.saved C⟩).newRecords.filter
          (fun rec => rec.message_id = id)).length = 1) ∧
    (∀ (oracle : String → Nat → Ann.APIResult) (inp : Ann.AnnInput) (r : Ann.Row),
      r ∈ Ann.remainingOf inp.rows (Ann.load_checkpoint inp.cpFile) →
      r.body = Ann.BodyVal.nonString →
      (inp.rows.map Ann.Row.message_id).Nodup →
      r.message_id ∈ (Ann.ann_run oracle inp).processed ∧
      ∀ rec ∈ (Ann.ann_run oracle inp).newRecords, rec.message_id ≠ r.message_id) := by
  constructor
  · intro oracle rows C outEx prev hok hnd id hid
    have hmain : (Ann.ann_run oracle ⟨rows, outEx, prev, Ann.CpFile.saved C⟩).newRecords.map
        Ann.Record.message_id = (Ann.remainingOf rows C).map Ann.Row.message_id := by
      unfold Ann.ann_run
      by_cases hemp :
          (Ann.remainingOf rows (Ann.load_checkpoint (Ann.CpFile.saved C))).isEmpty = true
      · rw [if_pos hemp]
        have hnil : Ann.remainingOf rows C = [] := by
          have := hemp
          rwa [show Ann.load_checkpoint (Ann.CpFile.saved C) = C from rfl,
            List.isEmpty_iff] at this
        show ([] : List Ann.Record).map Ann.Record.message_id =
          (Ann.remainingOf rows C).map Ann.Row.message_id
        rw [hnil]
        rfl
      · rw [if_neg hemp]
        exact (annLoop_success oracle (Ann.remainingOf rows C) C 0 hok).1
    rw [filter_mid_length, hmain]
    exact filter_eq_length_one _ id (remaining_ids_nodup rows C hnd) hid
  · intro oracle inp r hr hbody hnd
    have hne : ¬ (Ann.remainingOf inp.rows (Ann.load_checkpoint inp.cpFile)).isEmpty = true := by
      intro habs
      rw [List.isEmpty_iff] at habs
      rw [habs] at hr
      exact absurd hr (by simp)
    constructor
    · unfold Ann.ann_run
      rw [if_neg hne]
      exact annLoop_processed_of_row oracle _ _ 0 r hr (by simp [Ann.processItem, hbody])
    · intro rec hrec hmid
      have hrec' : rec ∈ (Ann.annLoop oracle
          (Ann.remainingOf inp.rows (Ann.load_checkpoint inp.cpFile))
          (Ann.load_checkpoint inp.cpFile) 0).2.1 := by
        have := hrec
        unfold Ann.ann_run at this
        rw [if_neg hne] at this
        exact this
      obtain ⟨r', hr', hw⟩ := annLoop_mem_rec oracle _ _ 0 rec hrec'
      have hmid' : r'.message_id = r.message_id :=
        (processItem_wrote_mid hw).symm.trans hmid
      have hnd' := remaining_ids_nodup inp.rows (Ann.load_checkpoint inp.cpFile) hnd
      have : r' = r := List.inj_on_of_nodup_map hnd' hr' hr hmid'
      rw [this] at hw
      rw [show Ann.processItem oracle r = Ann.ItemStep.skipNonString by
        simp [Ann.processItem, hbody]] at hw
      exact absurd hw (by simp)

/-- C3, witness: in the `{a,b,c,d}` run resumed from `{a,b}` the id `c` has
exactly one appended record; in the non-string-body run the id `a` is
processed (and, per the counterexample, recordless). -/
theorem C3_witness :
    ((Ann.ann_run okOracle c2Inp).newRecords.filter
      (fun rec => rec.message_id = "c")).length = 1 ∧
    "a" ∈ (Ann.ann_run okOracle c3Inp).processed := by
  constructor
  · exact C3_amended.1 okOracle c2Rows ({"a", "b"} : Finset String) true []
      c2Rows_ok (by decide) "c" (by decide)
  · exact (C3_amended.2 okOracle c3Inp ⟨"a", Ann.BodyVal.nonString⟩
      (by decide) rfl (by decide)).1

/-- C4, counterexample.  On the claimed input the parser does return
importance −1 and confidence 0.0, but the `reason` field of the sentinel is
the Japanese string "JSONパース失敗", not the English "parse failed" the claim
states; the claimed record is therefore not the result. -/
theorem C4_counterexample :
    parse_json_response "not json at all" = sentinelRecord ∧
    sentinelRecord ≠
      JValue.obj [("importance", JValue.num (-1)), ("reason", JValue.str "parse failed"),
        ("confidence", JValue.num 0)] :=
  ⟨by rfl, by simp [sentinelRecord]⟩

/-- C4, amended.  A response on which strict parsing and all salvage attempts
fail yields exactly the sentinel `importance = -1`, `reason = "JSONパース失敗"`
("JSON parse failure"), `confidence = 0.0`; the per-item step still writes a
record (the batch is not aborted), carrying those sentinel fields. -/
theorem C4_amended :
    parse_json_response "not json at all" = sentinelRecord ∧
    sentinelRecord =
      JValue.obj [("importance", JValue.num (-1)),
        ("reason", JValue.str "JSONパース失敗"), ("confidence", JValue.num 0)] ∧
    Ann.processItem c4Oracle ⟨"m1", Ann.BodyVal.str "mail body"⟩ =
      Ann.ItemStep.wrote
        { message_id := "m1", email_body := "mail body",
          importance := JValue.num (-1), reason := JValue.str "JSONパース失敗",
          confidence := JValue.num 0 } :=
  ⟨by rfl, rfl, by rfl⟩

/-- C5: salvage success.  The fenced, newline-wrapped response fails the
strict parse, and the salvage pass (newline removal, backtick/whitespace
strip, brace-to-brace slice) recovers exactly
`importance 4, reason "urgent bill", confidence 0.8`. -/
theorem C5_theorem :
    jsonLoads c5Response = none ∧
    jsonLoads (salvageClean c5Response) =
      some (JValue.obj [("importance", JValue.num 4),
        ("reason", JValue.str "urgent bill"),
        ("confidence", JValue.num (Rat.divInt 4 5))]) ∧
    parse_json_response c5Response =
      JValue.obj [("importance", JValue.num 4), ("reason", JValue.str "urgent bill"),
        ("confidence", JValue.num (Rat.divInt 4 5))] :=
  ⟨by rfl, by rfl, by rfl⟩

/-- C6, counterexample.  Work set `{a,b}` where every scoring call for `a`
fails and calls for `b` succeed: after `a`'s three attempts are exhausted the
raise lands in the **per-item** handler (line 230), which writes nothing,
marks nothing, and moves on to `b` — the run's records are exactly `[b]` and
`a` is absent from the processed set.  No batch abort, checkpoint-and-retry
of the same remaining set happens within the run, contradicting "the item is
not simply skipped". -/
theorem C6_counterexample :
    (Ann.ann_run c6Oracle c6Inp).newRecords.map Ann.Record.message_id = ["b"] ∧
    "a" ∉ (Ann.ann_run c6Oracle c6Inp).processed ∧
    "b" ∈ (Ann.ann_run c6Oracle c6Inp).processed :=
  ⟨by rfl, by decide, by decide⟩

/-- C6, amended.  Transport failures are retried up to 3 attempts total with
the linearly growing wait `ERROR_WAIT_TIME * retry_count` merely computed
(the sleep is commented out); exhausting the attempts raises into the
*per-item* handler: the item gets no record and is not marked processed in
this run, the run continues with the next item, and — because the id stays
out of the checkpoint — a rerun's remaining set still contains the item. -/
theorem C6_amended :
    (∀ o : Nat → Ann.APIResult, (∀ k, k < 3 → o k = Ann.APIResult.exc) →
      Ann.chatCall o = none) ∧
    (∀ k : Nat, wait_time k = (k : Rat) / 10) ∧
    (∀ (oracle : String → Nat → Ann.APIResult) (inp : Ann.AnnInput) (a : String),
      (∀ k, k < 3 → oracle a k = Ann.APIResult.exc) →
      (∀ r ∈ inp.rows, r.message_id = a → ∃ s, r.body = Ann.BodyVal.str s) →
      a ∉ Ann.load_checkpoint inp.cpFile →
      a ∉ (Ann.ann_run oracle inp).processed ∧
      (∀ rec ∈ (Ann.ann_run oracle inp).newRecords, rec.message_id ≠ a) ∧
      (∀ r ∈ inp.rows, r.message_id = a →
        r ∈ Ann.remainingOf inp.rows (Ann.ann_run oracle inp).processed)) := by
  refine ⟨fun o h => chatCall_exc h, ?_, ?_⟩
  · intro k
    unfold wait_time ERROR_WAIT_TIME
    rw [Rat.divInt_eq_div]
    push_cast
    ring
  · intro oracle inp a hA hstr hnotC
    have ha_drop : ∀ r ∈ inp.rows, r.message_id = a →
        Ann.processItem oracle r = Ann.ItemStep.dropError := by
      intro r hr hmid
      obtain ⟨s, hs⟩ := hstr r hr hmid
      refine processItem_dropError_of hs ?_
      rw [hmid]
      exact chatCall_exc hA
    have hproc : a ∉ (Ann.ann_run oracle inp).processed := by
      unfold Ann.ann_run
      by_cases hemp :
          (Ann.remainingOf inp.rows (Ann.load_checkpoint inp.cpFile)).isEmpty = true
      · rw [if_pos hemp]
        exact hnotC
      · rw [if_neg hemp]
        intro hmem
        rcases annLoop_mem_processed oracle _ _ 0 a hmem with hC | ⟨r, hr, hmid, hnd⟩
        · exact hnotC hC
        · have hr' : r ∈ inp.rows := by
            unfold Ann.remainingOf at hr
            exact (List.mem_filter.mp hr).1
          exact hnd (ha_drop r hr' hmid)
    refine ⟨hproc, ?_, ?_⟩
    · unfold Ann.ann_run
      by_cases hemp :
          (Ann.remainingOf inp.rows (Ann.load_checkpoint inp.cpFile)).isEmpty = true
      · rw [if_pos hemp]
        intro rec hrec
        exact absurd hrec (by simp)
      · rw [if_neg hemp]
        intro rec hrec hmid
        obtain ⟨r, hr, hw⟩ := annLoop_mem_rec oracle _ _ 0 rec hrec
        have hmid' : r.message_id = a := (processItem_wrote_mid hw).symm.trans hmid
        have hr' : r ∈ inp.rows := by
          unfold Ann.remainingOf at hr
          exact (List.mem_filter.mp hr).1
        exact absurd ((ha_drop r hr' hmid').symm.trans hw) (by simp)
    · intro r hr hmid
      unfold Ann.remainingOf
      refine List.mem_filter.mpr ⟨hr, ?_⟩
      simp only [decide_eq_true_eq]
      rw [hmid]
      exact hproc

/-- C6, witness: an always-failing oracle exhausts the three attempts; the
computed linear wait at the third retry is 0.3 s; and in the concrete `{a,b}`
run the item `a` is indeed left unprocessed. -/
theorem C6_witness :
    Ann.chatCall (fun _ => Ann.APIResult.exc) = none ∧
    wait_time 3 = (3 : Rat) / 10 ∧
    "a" ∉ (Ann.ann_run c6Oracle c6Inp).processed := by
  refine ⟨C6_amended.1 (fun _ => Ann.APIResult.exc) (fun k _ => rfl),
    C6_amended.2.1 3, ?_⟩
  refine (C6_amended.2.2 c6Oracle c6Inp "a" (fun k _ => rfl) ?_ (by decide)).1
  intro r hr hmid
  simp [c6Inp] at hr
  rcases hr with rfl | rfl
  · exact ⟨_, rfl⟩
  · exact ⟨_, rfl⟩

/-- C7, counterexample.  The source decodes with `errors='ignore'`, not
`errors='replace'`: on payload `61 FF 62` (an invalid byte between 'a' and
'b') extraction yields `"ab"` — the invalid byte is dropped — whereas the
claimed replace semantics yields `"a�b"`. -/
theorem C7_counterexample :
    Mbox.extract_text_from_message c7Msg = "ab" ∧
    Mbox.utf8Decode Mbox.ErrMode.replace [0x61, 0xFF, 0x62] = "a�b" ∧
    ("ab" : String) ≠ "a�b" :=
  ⟨by rfl, by rfl, by decide⟩

/-- C7, amended.  Body extraction never raises and returns `""` when the
payload is absent or the decode fails (for example an unmodelled/unknown
charset); invalid byte sequences are *dropped* (`errors='ignore'`), not
replaced: on bytes that are each ASCII or invalid lead bytes, decoding keeps
exactly the ASCII ones. -/
theorem C7_amended :
    (∀ p : Mbox.Part, p.payload = none →
      Mbox.extract_text_from_message (Mbox.PyMsg.single p) = "") ∧
    (∀ (p : Mbox.Part) (bs : List Nat), p.payload = some bs →
      Mbox.pyDecode (p.charsetDecl.getD "utf-8") Mbox.ErrMode.ignore bs = none →
      Mbox.extract_text_from_message (Mbox.PyMsg.single p) = "") ∧
    (∀ bs : List Nat, (∀ b ∈ bs, b < 0x80 ∨ 0xF5 ≤ b) →
      Mbox.utf8Decode Mbox.ErrMode.ignore bs =
        String.mk ((bs.filter (fun b => decide (b < 0x80))).map Char.ofNat)) := by
  refine ⟨?_, ?_, ?_⟩
  · intro p hp
    simp [Mbox.extract_text_from_message, hp]
  · intro p bs hp hdec
    by_cases hbs : bs = []
    · simp [Mbox.extract_text_from_message, hp, hbs]
    · simp [Mbox.extract_text_from_message, hp, hbs, hdec]
  · intro bs hb
    unfold Mbox.utf8Decode
    exact congrArg String.mk (utf8Aux_ascii_invalid bs (bs.length + 1) (by omega) hb)

/-- C7, witness: a part with no payload extracts `""`; a part with an
unmodelled charset extracts `""`; ignore-mode decoding of `61 FF 62` keeps
exactly the ASCII bytes. -/
theorem C7_witness :
    Mbox.extract_text_from_message
      (Mbox.PyMsg.single ⟨"text/plain", some "utf-8", none⟩) = "" ∧
    Mbox.extract_text_from_message
      (Mbox.PyMsg.single ⟨"text/plain", some "x-unknown", some [104, 105]⟩) = "" ∧
    Mbox.utf8Decode Mbox.ErrMode.ignore [0x61, 0xFF, 0x62] = "ab" := by
  refine ⟨C7_amended.1 _ rfl, C7_amended.2.1 _ [104, 105] rfl (by rfl), ?_⟩
  rw [C7_amended.2.2 [0x61, 0xFF, 0x62] (by decide)]
  rfl

/-- C8, counterexample.  A plain-text part with an empty payload is *not*
taken: on parts `[text/plain with empty payload, text/plain "hello"]` the
code extracts `"hello"` from the second part, while the claim's "decoded
payload of the first part whose content type is exactly plain text, stopping
at the first match" yields `""`. -/
theorem C8_counterexample :
    Mbox.extract_text_from_message (Mbox.PyMsg.multipart [c8EmptyPlain, c8Hello]) = "hello" ∧
    Mbox.firstPlainDecoded [c8EmptyPlain, c8Hello] = "" ∧
    ("hello" : String) ≠ "" :=
  ⟨by rfl, by rfl, by decide⟩

/-- C8, amended.  Extraction scans parts in original order and returns the
decoded payload of the first *contributing* plain-text part — the first part
that is `text/plain` with a truthy payload that decodes without raising;
plain-text parts with absent/empty/undecodable payloads are passed over.  In
particular the claim's own example holds: HTML part followed by plain-text
`"hello"` extracts `"hello"`. -/
theorem C8_amended :
    (∀ (pre : List Mbox.Part) (p : Mbox.Part) (rest : List Mbox.Part) (s : String),
      (∀ q ∈ pre, Mbox.takenPlain q = none) → Mbox.takenPlain p = some s →
      Mbox.extract_text_from_message (Mbox.PyMsg.multipart (pre ++ p :: rest)) = s) ∧
    Mbox.extract_text_from_message (Mbox.PyMsg.multipart [c8Html, c8Hello]) = "hello" := by
  refine ⟨?_, by rfl⟩
  intro pre p rest s hpre hp
  show Mbox.walkPlain (pre ++ p :: rest) = s
  exact walkPlain_first pre p rest s hpre hp

/-- C8, witness: with an HTML part and an empty plain-text part before it,
the contributing part `"hello"` is extracted. -/
theorem C8_witness :
    Mbox.extract_text_from_message
      (Mbox.PyMsg.multipart ([c8Html, c8EmptyPlain] ++ c8Hello :: [])) = "hello" := by
  refine C8_amended.1 [c8Html, c8EmptyPlain] c8Hello [] "hello" ?_ (by rfl)
  intro q hq
  simp only [List.mem_cons, List.mem_singleton] at hq
  rcases hq with rfl | rfl | h
  · rfl
  · rfl
  · exact absurd h (by simp)

/-- C9, counterexample.  A normal, fully successful annotation run (one item,
annotated and flushed) does **not** remove the annotation checkpoint file: it
ends by saving a final checkpoint (line 237), and no code path of
`annotate()` deletes `annotation_checkpoint.json`. -/
theorem C9_counterexample :
    (Ann.ann_run okOracle c9Inp).newRecords.length = 1 ∧
    (Ann.ann_run okOracle c9Inp).cpAfter ≠ Ann.CpFile.absent :=
  ⟨by rfl, by decide⟩

/-- C9, amended.  The extraction stage does remove its checkpoint file when
its batch loop completes; the annotation stage instead leaves a final saved
checkpoint in place (the resume filter makes a rerun a no-op); and a fatal
error (missing input columns) aborts before touching any file, surfacing as a
non-zero exit. -/
theorem C9_amended :
    (∀ (w : Ext.World) (processed0 sampled : List String) (csv0 : List Ext.ExtRecord)
       (cp0 : Option (List String × List String)) (fuel : Nat),
      (Ext.ext_main_resume w processed0 sampled csv0 cp0 fuel).finished = true →
      (Ext.ext_main_resume w processed0 sampled csv0 cp0 fuel).cpFile = none) ∧
    (∀ (oracle : String → Nat → Ann.APIResult) (inp : Ann.AnnInput),
      ¬ (Ann.remainingOf inp.rows (Ann.load_checkpoint inp.cpFile)).isEmpty = true →
      (Ann.ann_run oracle inp).cpAfter =
        Ann.CpFile.saved (Ann.ann_run oracle inp).processed) ∧
    (∀ (oracle : String → Nat → Ann.APIResult) (inp : Ann.AnnInput),
      Ann.annotate_main oracle false inp = Except.error ()) := by
  refine ⟨?_, ?_, fun _ _ => rfl⟩
  · intro w processed0 sampled csv0 cp0 fuel
    unfold Ext.ext_main_resume
    by_cases hemp : ((sampled.filter (fun id => id ∉ processed0)).isEmpty : Prop)
    · rw [if_pos hemp]
      intro hfin
      exact absurd hfin (by simp)
    · rw [if_neg hemp]
      exact extLoop_finished_cp w _ sampled fuel _ rfl
  · intro oracle inp hemp
    unfold Ann.ann_run
    rw [if_neg hemp]

/-- C9, witness: a finished extraction resume run has no checkpoint file; the
concrete annotation run leaves its final checkpoint saved; the missing-column
run errors out. -/
theorem C9_witness :
    (Ext.ext_main_resume allOkExtWorld ["e"] ["e", "f"] [] (some (["e"], ["e", "f"])) 2).cpFile
      = none ∧
    (Ann.ann_run okOracle c9Inp).cpAfter =
      Ann.CpFile.saved (Ann.ann_run okOracle c9Inp).processed ∧
    Ann.annotate_main okOracle false c9Inp = Except.error () :=
  ⟨C9_amended.1 allOkExtWorld ["e"] ["e", "f"] [] (some (["e"], ["e", "f"])) 2 (by rfl),
   C9_amended.2.1 okOracle c9Inp (by decide),
   C9_amended.2.2 okOracle c9Inp⟩

/-- C10, counterexample.  Checkpoint file absent, output file present with one
record from a previous run, but the input CSV has no rows: the computed mode
is write, yet the run returns at the empty-remaining check (lines 140-142)
*before* opening the output file, so the previous records are left intact —
the claim's "in every other case the output file is opened in write mode and
all previously appended output records are erased" fails here. -/
theorem C10_counterexample :
    (Ann.ann_run okOracle c10Inp).fileMode = Ann.FileMode.write ∧
    c10Inp.outputExists = true ∧
    c10Inp.prevOutput ≠ [] ∧
    (Ann.ann_run okOracle c10Inp).outputFile = some [c10Rec] ∧
    (Ann.ann_run okOracle c10Inp).opened = false :=
  ⟨by rfl, rfl, by simp [c10Inp], by rfl, by rfl⟩

/-- C10, amended.  The append mode is chosen iff the output file exists and
the loaded checkpoint is non-empty; when some work remains, opening in write
mode erases the prior records (the final file holds only this run's records);
but when no work remains the run returns before opening the file, which is
left exactly as it was. -/
theorem C10_amended (oracle : String → Nat → Ann.APIResult) (inp : Ann.AnnInput) :
    ((Ann.ann_run oracle inp).fileMode = Ann.FileMode.append ↔
      (inp.outputExists = true ∧ Ann.load_checkpoint inp.cpFile ≠ ∅)) ∧
    (¬ (Ann.remainingOf inp.rows (Ann.load_checkpoint inp.cpFile)).isEmpty = true →
      (Ann.ann_run oracle inp).fileMode = Ann.FileMode.write →
      (Ann.ann_run oracle inp).outputFile = some (Ann.ann_run oracle inp).newRecords) ∧
    ((Ann.remainingOf inp.rows (Ann.load_checkpoint inp.cpFile)).isEmpty = true →
      (Ann.ann_run oracle inp).opened = false ∧
      (Ann.ann_run oracle inp).outputFile =
        (if inp.outputExists = true then some inp.prevOutput else none)) := by
  have hfm : (Ann.ann_run oracle inp).fileMode = Ann.fileModeOf inp := by
    unfold Ann.ann_run
    by_cases hemp :
        (Ann.remainingOf inp.rows (Ann.load_checkpoint inp.cpFile)).isEmpty = true
    · rw [if_pos hemp]
    · rw [if_neg hemp]
  refine ⟨?_, ?_, ?_⟩
  · rw [hfm]
    unfold Ann.fileModeOf
    by_cases hcond : (inp.outputExists = true ∧ Ann.load_checkpoint inp.cpFile ≠ ∅)
    · simp [hcond]
    · simp [if_neg hcond, hcond]
  · intro hemp hw
    rw [hfm] at hw
    unfold Ann.ann_run
    rw [if_neg hemp]
    show some ((if Ann.fileModeOf inp = Ann.FileMode.append then inp.prevOutput else []) ++
      (Ann.annLoop oracle (Ann.remainingOf inp.rows (Ann.load_checkpoint inp.cpFile))
        (Ann.load_checkpoint inp.cpFile) 0).2.1) = some
      ((Ann.annLoop oracle (Ann.remainingOf inp.rows (Ann.load_checkpoint inp.cpFile))
        (Ann.load_checkpoint inp.cpFile) 0).2.1)
    rw [hw]
    simp
  · intro hemp
    unfold Ann.ann_run
    rw [if_pos hemp]
    exact ⟨rfl, rfl⟩

/-- C10, witness: on the `{a,b,c,d}` input with checkpoint `{a,b}` and an
existing output file the mode is append; on the empty-input run the file is
never opened and keeps its record. -/
theorem C10_witness :
    (Ann.ann_run okOracle c2Inp).fileMode = Ann.FileMode.append ∧
    (Ann.ann_run okOracle c10Inp).opened = false ∧
    (Ann.ann_run okOracle c10Inp).outputFile =
      (if c10Inp.outputExists = true then some c10Inp.prevOutput else none) := by
  refine ⟨(C10_amended okOracle c2Inp).1.mpr ⟨rfl, by decide⟩, ?_, ?_⟩
  · exact ((C10_amended okOracle c10Inp).2.2 (by decide)).1
  · exact ((C10_amended okOracle c10Inp).2.2 (by decide)).2

/-- C1, witness: the invariant instantiated at the concrete `{a,b,c,d}` run. -/
theorem C1_witness :
    Ann.saveOk (Ann.load_checkpoint c2Inp.cpFile) (Ann.nanIds c2Inp.rows) []
      (Ann.ann_run okOracle c2Inp).trace :=
  C1_amended okOracle c2Inp

end MailFilter
